import Mathlib

/-!
Verification of the cluster consolidation and cost reconciliation engine of
the order-tracking repository.  The Python sources `lib/clusters.py` and
`lib/group_site_manager.py` are shallowly embedded below: pure functions
become Lean functions, the in-place mutation of cluster lists becomes
explicit state passing (clusters addressed by index, mirroring Python
object identity inside `update_clusters` and `run_merge_iteration`), and
the module-level mutable default arguments of `Cluster._initiate` are
modelled with an explicit heap of container cells.

Python `set` values are modelled as duplicate-free `List String` values in
insertion order (Python set iteration order is unspecified; the list order
serves as the iteration order where the source iterates a set).  Python
floats are modelled as rationals; every cost computation the claims touch
is a sum of decimal literals, which float addition represents exactly.
Python strings compare lexicographically by code point, as Lean strings do.
-/

set_option autoImplicit false

namespace OrderTracking

/-! ## Python-style string and container helpers -/

/-- Whitespace characters removed by Python `str.strip()` (ASCII subset). -/
def isPyWS (c : Char) : Bool :=
  c = ' ' || c = '\t' || c = '\n' || c = '\r' || c = '\x0b' || c = '\x0c'

/-- Python `str.strip()`. -/
def pyStrip (s : String) : String :=
  String.mk (((s.toList.dropWhile isPyWS).reverse.dropWhile isPyWS).reverse)

/-- Python `str.upper()` (ASCII letters; the tracking data is ASCII). -/
def pyUpper (s : String) : String :=
  String.mk (s.toList.map Char.toUpper)

/-- Split a character list on a separator character; always returns at
least one chunk, like Python `str.split(sep)`. -/
def splitOnCharAux (sep : Char) : List Char → List Char → List (List Char)
  | [], acc => [acc.reverse]
  | c :: cs, acc =>
    if c = sep then acc.reverse :: splitOnCharAux sep cs []
    else splitOnCharAux sep cs (c :: acc)

/-- Python `s.split(sep)` for a single-character separator. -/
def pySplit (s : String) (sep : Char) : List String :=
  (splitOnCharAux sep s.toList []).map String.mk

/-- Python dictionary modelled as an association list; insertion conses in
front so that a later insert shadows an earlier one, which matches
overwriting dictionary assignment (the sources only ever look keys up,
never iterate over these dictionaries). -/
def ainsert {κ β : Type} (m : List (κ × β)) (k : κ) (v : β) : List (κ × β) :=
  (k, v) :: m

/-- Python dictionary lookup. -/
def alookup {κ β : Type} [DecidableEq κ] : List (κ × β) → κ → Option β
  | [], _ => none
  | (k, v) :: rest, key => if k = key then some v else alookup rest key

/-- Python `set.add`: append the element unless it is already present. -/
def setAdd (s : List String) (x : String) : List String :=
  if x ∈ s then s else s ++ [x]

/-- Python `set.update`: add every element of the second set. -/
def setUnion (s t : List String) : List String :=
  t.foldl setAdd s

/-- Python `set(iterable)`: deduplicate, keeping first occurrences. -/
def pySetAux (acc : List String) : List String → List String
  | [] => acc
  | x :: rest => if x ∈ acc then pySetAux acc rest else pySetAux (acc ++ [x]) rest

/-- Python `set(list)` as a duplicate-free list. -/
def pySet (l : List String) : List String :=
  pySetAux [] l

/-- Lexicographic strict comparison of character lists, as Python
compares strings (code-point order). -/
def listLtChar : List Char → List Char → Bool
  | [], [] => false
  | [], _ :: _ => true
  | _ :: _, [] => false
  | a :: as, b :: bs =>
    if a < b then true
    else if b < a then false
    else listLtChar as bs

/-- Python `a < b` on strings. -/
def pyStrLt (a b : String) : Bool :=
  listLtChar a.toList b.toList

/-- Python `max` on two strings: returns the second iff it is strictly
greater (lexicographic code-point order, identical to Python's). -/
def pyMax (a b : String) : String :=
  if pyStrLt a b then b else a

/-- The numeric value of a digit run, if the characters are all digits
and the run is non-empty. -/
def digitsVal? (l : List Char) : Option ℕ :=
  if l ≠ [] ∧ l.all Char.isDigit then
    some (l.foldl (fun n c => n * 10 + (c.toNat - 48)) 0)
  else none

/-- Python `float(s)` on the decimal forms the exported sheets and cost
reports contain (optional sign, digits, optional fractional part,
surrounding whitespace); other strings fail. -/
def parseFloat? (s : String) : Option ℚ :=
  let body := (pyStrip s).toList
  let signed : ℚ × List Char :=
    match body with
    | '-' :: rest => (-1, rest)
    | '+' :: rest => (1, rest)
    | l => (1, l)
  match splitOnCharAux '.' signed.2 [] with
  | [ip] => (digitsVal? ip).map (fun n => signed.1 * n)
  | [ip, fp] =>
    if ip = [] ∧ fp = [] then none
    else
      let ipv := if ip = [] then some 0 else digitsVal? ip
      let fpv := if fp = [] then some 0 else digitsVal? fp
      match ipv, fpv with
      | some i, some f =>
        some (signed.1 * ((i : ℚ) + (f : ℚ) / (10 : ℚ) ^ fp.length))
      | _, _ => none
  | _ => none

/-! ## Data model

`lib/tracking.py` is not part of the provided sources (only its importers
are), so the `Tracking` record is taken from the specification. -/

/-- Modelled from the spec: `lib/tracking.py` is absent from the sources.
A `Tracking` is an immutable input record with `tracking_number`, `group`,
`order_ids` (a set of order identifiers, modelled as a list giving the
iteration order), ship/delivery dates as date-like strings with the "0"
sentinel, and `to_email`. -/
structure Tracking where
  tracking_number : String
  group : String
  order_ids : List String
  ship_date : String
  delivery_date : String
  to_email : String
deriving DecidableEq, Repr

/-- The `Cluster` entity of `lib/clusters.py`, with the field values an
instance holds after `_initiate`.  Container fields are value sets/lists
here; the sharing of the mutable default containers between instances is
modelled separately by the heap embedding below. -/
structure Cluster where
  orders : List String
  trackings : List String
  group : String
  expected_cost : ℚ
  tracked_cost : ℚ
  last_ship_date : String
  purchase_orders : List String
  email_ids : List String
  adjustment : ℚ
  to_email : String
  notes : String
  manual_override : Bool
  non_reimbursed_trackings : List String
  cancelled_items : List String
  last_delivery_date : String
deriving DecidableEq, Repr

namespace Cluster

/-- `Cluster.__init__(group)`: `_initiate(set(), set(), group, 0, 0, '0',
set(), set(), 0.0, [])` plus the remaining defaults.  The ten positional
arguments land in the slots orders, trackings, group, expected_cost,
tracked_cost, last_ship_date, purchase_orders, email_ids, adjustment and
to_email — so the fresh empty list is assigned to `to_email` (a slip in
the source, immediately overwritten by `update_clusters` and never read
as a string before that); it is rendered as `""` here.  The remaining
fields take the `_initiate` defaults; the value-level result is recorded
here, the aliasing of the default containers in the heap model below. -/
def new (group : String) : Cluster where
  orders := []
  trackings := []
  group := group
  expected_cost := 0
  tracked_cost := 0
  last_ship_date := "0"
  purchase_orders := []
  email_ids := []
  adjustment := 0
  to_email := ""
  notes := ""
  manual_override := false
  non_reimbursed_trackings := []
  cancelled_items := []
  last_delivery_date := ""

instance : Inhabited Cluster := ⟨new ""⟩

/-- `Cluster.merge_with(other)` from `lib/clusters.py`, as the value of
`self` after the call. -/
def merge_with (self other : Cluster) : Cluster where
  orders := setUnion self.orders other.orders
  trackings := setUnion self.trackings other.trackings
  group :=
    if pyStrip self.group = pyStrip other.group then self.group
    else self.group ++ ", " ++ pyStrip other.group
  expected_cost := self.expected_cost + other.expected_cost
  tracked_cost := self.tracked_cost + other.tracked_cost
  last_ship_date := pyMax self.last_ship_date other.last_ship_date
  last_delivery_date := pyMax self.last_delivery_date other.last_delivery_date
  purchase_orders := setUnion self.purchase_orders other.purchase_orders
  email_ids := setUnion self.email_ids other.email_ids
  adjustment := self.adjustment + other.adjustment
  to_email := self.to_email
  notes :=
    if self.notes ≠ "" ∧ other.notes ≠ "" then self.notes ++ ", " ++ other.notes
    else if other.notes ≠ "" then other.notes
    else self.notes
  manual_override :=
    if self.manual_override || other.manual_override then false
    else self.manual_override
  non_reimbursed_trackings :=
    setUnion self.non_reimbursed_trackings other.non_reimbursed_trackings
  cancelled_items := self.cancelled_items ++ other.cancelled_items

end Cluster

/-! ## Cluster assignment (`update_clusters`)

Clusters are mutable Python objects; inside `update_clusters` the list
`all_clusters` and the dictionary `order_to_cluster` hold references to
the same objects.  The embedding addresses clusters by their index in the
list, so the dictionary maps order IDs to indices. -/

/-- `find_cluster(order_to_cluster, tracking)`: the first of the
tracking's order IDs present in the map wins. -/
def find_cluster (order_to_cluster : List (String × ℕ)) (t : Tracking) : Option ℕ :=
  t.order_ids.findSome? (fun o => alookup order_to_cluster o)

/-- The per-tracking mutation of the found (or newly created) cluster:
lines 114-126 of `lib/clusters.py`.  The manual-override flag is cleared
exactly when the tracking brings an order ID not in `cluster.orders` or a
tracking number not in `cluster.trackings`. -/
def applyTracking (c : Cluster) (t : Tracking) : Cluster :=
  let introducesNew : Bool :=
    t.order_ids.any (fun o => decide (o ∉ c.orders)) ||
      decide (t.tracking_number ∉ c.trackings)
  { c with
    manual_override := if introducesNew then false else c.manual_override
    orders := setUnion c.orders t.order_ids
    trackings := setAdd c.trackings t.tracking_number
    last_ship_date := pyMax c.last_ship_date t.ship_date
    last_delivery_date := pyMax c.last_delivery_date t.delivery_date
    to_email := t.to_email }

/-- Working state of `update_clusters`: the cluster list being mutated in
place and the order → cluster dictionary (cluster = index). -/
structure UCState where
  clusters : List Cluster
  orderToCluster : List (String × ℕ)
deriving Repr

/-- One iteration of the `for tracking in trackings` loop of
`update_clusters`: find or create the cluster, register every order ID of
the tracking in the map, then apply the per-tracking update. -/
def update_clusters_step (st : UCState) (t : Tracking) : UCState :=
  let found := find_cluster st.orderToCluster t
  let idx := match found with
    | some i => i
    | none => st.clusters.length
  let clusters1 := match found with
    | some _ => st.clusters
    | none => st.clusters ++ [Cluster.new t.group]
  let m := t.order_ids.foldl (fun m o => ainsert m o idx) st.orderToCluster
  let c := clusters1.getD idx default
  { clusters := clusters1.set idx (applyTracking c t), orderToCluster := m }

/-- `update_clusters(all_clusters, trackings)`: the value of
`all_clusters` after the call.  Note that the source initialises
`order_to_cluster` to the empty dictionary; the pre-existing clusters are
never scanned into it. -/
def update_clusters (all_clusters : List Cluster) (trackings : List Tracking) :
    List Cluster :=
  (trackings.foldl update_clusters_step ⟨all_clusters, []⟩).clusters

/-! ## Merge engine (`merge_orders` and friends)

`run_merge_iteration` keeps a result list and two dictionaries whose
values are references to clusters already placed in the result; merging
mutates such a cluster in place.  The embedding stores the index of the
representative in the result list. -/

/-- Working state of one merge pass. -/
structure MergeState where
  result : List Cluster
  emailTo : List (String × ℕ)
  poGroupTo : List ((String × String) × ℕ)
deriving Repr

/-- `fill_email_po_group_maps(cluster, ...)`: register every
`(purchase_order, group)` pair and every email ID of the cluster at
index `i`. -/
def fill_email_po_group_maps (c : Cluster) (i : ℕ) (st : MergeState) : MergeState :=
  { st with
    poGroupTo := c.purchase_orders.foldl (fun m po => ainsert m (po, c.group) i) st.poGroupTo
    emailTo := c.email_ids.foldl (fun m e => ainsert m e i) st.emailTo }

/-- `find_by_shared_attr(cluster, email_to_cluster, po_group_to_cluster)`:
purchase-order/group keys are checked before email keys; within each, the
first key whose lookup succeeds wins. -/
def find_by_shared_attr (c : Cluster) (emailTo : List (String × ℕ))
    (poGroupTo : List ((String × String) × ℕ)) : Option ℕ :=
  match c.purchase_orders.findSome? (fun po => alookup poGroupTo (po, c.group)) with
  | some i => some i
  | none => c.email_ids.findSome? (fun e => alookup emailTo e)

/-- One iteration of the `for cluster in clusters` loop of
`run_merge_iteration`: merge into the found representative (refreshing
both maps with its expanded key sets), or append the cluster as a new
representative. -/
def mergeStep (st : MergeState) (c : Cluster) : MergeState :=
  match find_by_shared_attr c st.emailTo st.poGroupTo with
  | some i =>
    let merged := (st.result.getD i default).merge_with c
    fill_email_po_group_maps merged i { st with result := st.result.set i merged }
  | none =>
    fill_email_po_group_maps c st.result.length
      { st with result := st.result ++ [c] }

/-- `run_merge_iteration(clusters)`. -/
def run_merge_iteration (clusters : List Cluster) : List Cluster :=
  (clusters.foldl mergeStep ⟨[], [], []⟩).result

theorem fill_maps_result (c : Cluster) (i : ℕ) (st : MergeState) :
    (fill_email_po_group_maps c i st).result = st.result := rfl

theorem mergeStep_result_length_le (st : MergeState) (c : Cluster) :
    (mergeStep st c).result.length ≤ st.result.length + 1 := by
  unfold mergeStep
  cases find_by_shared_attr c st.emailTo st.poGroupTo with
  | some i => simp [fill_maps_result]
  | none => simp [fill_maps_result]

theorem mergeStep_result_length_ge (st : MergeState) (c : Cluster) :
    st.result.length ≤ (mergeStep st c).result.length := by
  unfold mergeStep
  cases find_by_shared_attr c st.emailTo st.poGroupTo with
  | some i => simp [fill_maps_result]
  | none => simp [fill_maps_result]

theorem foldl_mergeStep_length_le (l : List Cluster) :
    ∀ st : MergeState, ((l.foldl mergeStep st).result).length ≤ st.result.length + l.length := by
  induction l with
  | nil => intro st; simp
  | cons c rest ih =>
    intro st
    calc ((rest.foldl mergeStep (mergeStep st c)).result).length
        ≤ (mergeStep st c).result.length + rest.length := ih (mergeStep st c)
      _ ≤ (st.result.length + 1) + rest.length := by
          exact Nat.add_le_add_right (mergeStep_result_length_le st c) _
      _ = st.result.length + (c :: rest).length := by simp [Nat.add_assoc, Nat.add_comm 1]

theorem foldl_mergeStep_length_ge (l : List Cluster) :
    ∀ st : MergeState, st.result.length ≤ ((l.foldl mergeStep st).result).length := by
  induction l with
  | nil => intro st; simp
  | cons c rest ih =>
    intro st
    exact Nat.le_trans (mergeStep_result_length_ge st c) (ih (mergeStep st c))

/-- A pass that does not shrink the cluster count performed no merge at
all: every cluster was appended unchanged. -/
theorem foldl_mergeStep_length_eq (l : List Cluster) :
    ∀ st : MergeState, ((l.foldl mergeStep st).result).length = st.result.length + l.length →
      (l.foldl mergeStep st).result = st.result ++ l := by
  induction l with
  | nil => intro st _; simp
  | cons c rest ih =>
    intro st h
    match hfind : find_by_shared_attr c st.emailTo st.poGroupTo with
    | some i =>
      exfalso
      have hstep : (mergeStep st c).result.length = st.result.length := by
        unfold mergeStep
        rw [hfind]
        simp [fill_maps_result]
      have hle := foldl_mergeStep_length_le rest (mergeStep st c)
      rw [List.foldl_cons] at h
      rw [h, hstep] at hle
      simp only [List.length_cons] at hle
      omega
    | none =>
      have hstep : (mergeStep st c).result = st.result ++ [c] := by
        unfold mergeStep
        rw [hfind]
        simp [fill_maps_result]
      rw [List.foldl_cons] at h ⊢
      have hlen : ((rest.foldl mergeStep (mergeStep st c)).result).length =
          (mergeStep st c).result.length + rest.length := by
        rw [h, hstep]
        simp [Nat.add_assoc, Nat.add_comm 1]
      have := ih (mergeStep st c) hlen
      rw [this, hstep]
      simp

theorem run_merge_iteration_length_le (clusters : List Cluster) :
    (run_merge_iteration clusters).length ≤ clusters.length := by
  have := foldl_mergeStep_length_le clusters ⟨[], [], []⟩
  simpa [run_merge_iteration] using this

/-- A length-preserving pass is the identity. -/
theorem run_merge_iteration_of_length_eq (clusters : List Cluster)
    (h : (run_merge_iteration clusters).length = clusters.length) :
    run_merge_iteration clusters = clusters := by
  have := foldl_mergeStep_length_eq clusters ⟨[], [], []⟩
  simp only [run_merge_iteration] at h ⊢
  have h' : ((clusters.foldl mergeStep ⟨[], [], []⟩).result).length =
      (MergeState.mk [] [] []).result.length + clusters.length := by
    simpa using h
  simpa using this h'

/-- `merge_orders(clusters)`: iterate `run_merge_iteration` until a pass
no longer shrinks the list, then return the last pass's output.
Termination: a pass that changes the length strictly decreases it. -/
def merge_orders (clusters : List Cluster) : List Cluster :=
  let next := run_merge_iteration clusters
  if h : next.length = clusters.length then next
  else merge_orders next
termination_by clusters.length
decreasing_by
  exact Nat.lt_of_le_of_ne (run_merge_iteration_length_le clusters) h

theorem merge_orders_eq (clusters : List Cluster) :
    merge_orders clusters =
      if (run_merge_iteration clusters).length = clusters.length then
        run_merge_iteration clusters
      else merge_orders (run_merge_iteration clusters) := by
  rw [merge_orders]
  by_cases h : (run_merge_iteration clusters).length = clusters.length
  · simp [h]
  · simp [h]

theorem findSome?_const_none {α β : Type} (l : List α) :
    l.findSome? (fun _ => (none : Option β)) = none := by
  induction l with
  | nil => rfl
  | cons x rest ih => simp [List.findSome?, ih]

theorem find_by_shared_attr_empty_maps (c : Cluster) :
    find_by_shared_attr c [] [] = none := by
  unfold find_by_shared_attr
  rw [show (fun po => alookup ([] : List ((String × String) × ℕ)) (po, c.group)) =
      (fun _ => (none : Option ℕ)) from rfl]
  rw [findSome?_const_none]
  exact findSome?_const_none c.email_ids

theorem run_merge_iteration_ne_nil (clusters : List Cluster) (h : clusters ≠ []) :
    run_merge_iteration clusters ≠ [] := by
  match clusters with
  | [] => exact absurd rfl h
  | c :: rest =>
    have hstep : (mergeStep ⟨[], [], []⟩ c).result = [c] := by
      unfold mergeStep
      rw [find_by_shared_attr_empty_maps]
      simp [fill_maps_result]
    have hge := foldl_mergeStep_length_ge rest (mergeStep ⟨[], [], []⟩ c)
    rw [hstep] at hge
    simp only [run_merge_iteration, List.foldl_cons]
    intro hnil
    rw [hnil] at hge
    simp at hge

/-- The merge loop reaches its fixed point: no further pass changes the
returned list. -/
theorem merge_orders_fixed (clusters : List Cluster) :
    run_merge_iteration (merge_orders clusters) = merge_orders clusters := by
  generalize hn : clusters.length = n
  induction n using Nat.strong_induction_on generalizing clusters with
  | _ n ih =>
    rw [merge_orders_eq]
    by_cases h : (run_merge_iteration clusters).length = clusters.length
    · simp only [if_pos h]
      have hid := run_merge_iteration_of_length_eq clusters h
      rw [hid]
      exact hid
    · simp only [if_neg h]
      have hlt : (run_merge_iteration clusters).length < n := by
        rw [← hn]
        exact Nat.lt_of_le_of_ne (run_merge_iteration_length_le clusters) h
      exact ih _ hlt _ rfl

/-- `merge_orders` equals some iterate of `run_merge_iteration`, with the
number of length-reducing passes bounded by the initial count minus one. -/
theorem merge_orders_iterate (clusters : List Cluster) :
    ∃ k, k ≤ clusters.length - 1 ∧
      merge_orders clusters = run_merge_iteration^[k] clusters := by
  generalize hn : clusters.length = n
  induction n using Nat.strong_induction_on generalizing clusters with
  | _ n ih =>
    rw [merge_orders_eq]
    by_cases h : (run_merge_iteration clusters).length = clusters.length
    · refine ⟨0, Nat.zero_le _, ?_⟩
      simp only [if_pos h, Function.iterate_zero, id]
      exact run_merge_iteration_of_length_eq clusters h
    · simp only [if_neg h]
      have hne : clusters ≠ [] := by
        intro hnil
        apply h
        rw [hnil]
        rfl
      have hlt : (run_merge_iteration clusters).length < clusters.length :=
        Nat.lt_of_le_of_ne (run_merge_iteration_length_le clusters) h
      have hpos : 0 < (run_merge_iteration clusters).length := by
        have := run_merge_iteration_ne_nil clusters hne
        exact List.length_pos.mpr this
      obtain ⟨k, hk, heq⟩ := ih (run_merge_iteration clusters).length (by omega)
        (run_merge_iteration clusters) rfl
      refine ⟨k + 1, by omega, ?_⟩
      rw [Function.iterate_succ_apply]
      exact heq

/-! ## Heap embedding of cluster construction

`Cluster._initiate` declares mutable default arguments
(`purchase_orders=set()`, `email_ids=set()`,
`non_reimbursed_trackings=set()`, `cancelled_items=[]`).  Python
evaluates these four container expressions once, when the `def` is
executed at import time; every call that does not pass the corresponding
argument receives a reference to that same shared object.
`Cluster.__init__` passes only ten positional arguments, so every cluster
it builds aliases the shared `non_reimbursed_trackings` set and the
shared `cancelled_items` list.  This embedding makes the container
references explicit: a heap of cells holding the container contents, and
cluster objects holding cell indices. -/

/-- The heap: cell `i` holds the contents of one Python set or list
(sets as duplicate-free lists). -/
structure PyHeap where
  cells : List (List String)
deriving Repr

/-- Allocate a fresh container cell. -/
def allocCell (h : PyHeap) (v : List String) : ℕ × PyHeap :=
  (h.cells.length, ⟨h.cells ++ [v]⟩)

/-- Dereference a container cell. -/
def readCell (h : PyHeap) (r : ℕ) : List String :=
  h.cells.getD r []

/-- Mutate a container cell in place. -/
def writeCell (h : PyHeap) (r : ℕ) (v : List String) : PyHeap :=
  ⟨h.cells.set r v⟩

/-- A `Cluster` instance with its container-valued attributes as heap
references and its scalar attributes as values. -/
structure ClusterObj where
  orders : ℕ
  trackings : ℕ
  group : String
  expected_cost : ℚ
  tracked_cost : ℚ
  last_ship_date : String
  purchase_orders : ℕ
  email_ids : ℕ
  adjustment : ℚ
  to_email : String
  notes : String
  manual_override : Bool
  non_reimbursed_trackings : ℕ
  cancelled_items : ℕ
  last_delivery_date : String
deriving Repr

/-- Cell of the shared `purchase_orders=set()` default argument. -/
def defaultPurchaseOrdersRef : ℕ := 0
/-- Cell of the shared `email_ids=set()` default argument. -/
def defaultEmailIdsRef : ℕ := 1
/-- Cell of the shared `non_reimbursed_trackings=set()` default argument. -/
def defaultNonReimbursedRef : ℕ := 2
/-- Cell of the shared `cancelled_items=[]` default argument. -/
def defaultCancelledRef : ℕ := 3

/-- The heap right after `lib/clusters.py` is imported: the four default
container arguments of `_initiate` have been evaluated, each to its own
empty container. -/
def pyHeapInit : PyHeap := ⟨[[], [], [], []]⟩

/-- `Cluster(group)`, heap level.  `__init__` evaluates four fresh
`set()` literals (orders, trackings, purchase_orders, email_ids) and one
fresh `[]` (which lands in the `to_email` slot, rendered `""` here);
`non_reimbursed_trackings` and `cancelled_items` are not passed, so the
object stores references to the shared default containers. -/
def clusterNewObj (h : PyHeap) (group : String) : ClusterObj × PyHeap :=
  let a1 := allocCell h []
  let a2 := allocCell a1.2 []
  let a3 := allocCell a2.2 []
  let a4 := allocCell a3.2 []
  (⟨a1.1, a2.1, group, 0, 0, "0", a3.1, a4.1, 0, "", "", false,
    defaultNonReimbursedRef, defaultCancelledRef, ""⟩, a4.2)

/-- `Cluster._initiate` invoked with every container argument explicitly
constructed by the caller, as `from_row` does: all six containers are
freshly allocated with the given contents. -/
def clusterFreshObj (h : PyHeap) (orders trackings purchase_orders email_ids
    non_reimbursed_trackings cancelled_items : List String) (group : String) :
    ClusterObj × PyHeap :=
  let a1 := allocCell h orders
  let a2 := allocCell a1.2 trackings
  let a3 := allocCell a2.2 purchase_orders
  let a4 := allocCell a3.2 email_ids
  let a5 := allocCell a4.2 non_reimbursed_trackings
  let a6 := allocCell a5.2 cancelled_items
  (⟨a1.1, a2.1, group, 0, 0, "0", a3.1, a4.1, 0, "", "", false,
    a5.1, a6.1, ""⟩, a6.2)

/-- `Cluster.merge_with(other)`, heap level: the container cells that
`self` references are updated in place (in source order), and the updated
scalar attributes of `self` are returned. -/
def mergeWithObj (h : PyHeap) (self other : ClusterObj) : ClusterObj × PyHeap :=
  let h := writeCell h self.orders
    (setUnion (readCell h self.orders) (readCell h other.orders))
  let h := writeCell h self.trackings
    (setUnion (readCell h self.trackings) (readCell h other.trackings))
  let group :=
    if pyStrip self.group = pyStrip other.group then self.group
    else self.group ++ ", " ++ pyStrip other.group
  let h := writeCell h self.purchase_orders
    (setUnion (readCell h self.purchase_orders) (readCell h other.purchase_orders))
  let h := writeCell h self.email_ids
    (setUnion (readCell h self.email_ids) (readCell h other.email_ids))
  let notes :=
    if self.notes ≠ "" ∧ other.notes ≠ "" then self.notes ++ ", " ++ other.notes
    else if other.notes ≠ "" then other.notes
    else self.notes
  let manual_override :=
    if self.manual_override || other.manual_override then false
    else self.manual_override
  let h := writeCell h self.non_reimbursed_trackings
    (setUnion (readCell h self.non_reimbursed_trackings)
      (readCell h other.non_reimbursed_trackings))
  let h := writeCell h self.cancelled_items
    (readCell h self.cancelled_items ++ readCell h other.cancelled_items)
  ({ self with
      group := group
      expected_cost := self.expected_cost + other.expected_cost
      tracked_cost := self.tracked_cost + other.tracked_cost
      last_ship_date := pyMax self.last_ship_date other.last_ship_date
      last_delivery_date := pyMax self.last_delivery_date other.last_delivery_date
      adjustment := self.adjustment + other.adjustment
      notes := notes
      manual_override := manual_override }, h)

/-! ## Cost ledger accumulation (`lib/group_site_manager.py`)

`_melul_get_tracking_pos_costs_maps` downloads a CSV (I/O, supplied here
as the row list) and folds the rows into the tracking-keyed ledger and
the PO-keyed cost map. -/

/-- A tracking-keyed ledger entry: source group, accumulated cost, date. -/
abbrev TrackingInfo := String × ℚ × String

/-- Ledger keyed by tuples of tracking numbers. -/
abbrev TrackingInfoDict := List (List String × TrackingInfo)

/-- PO-keyed cost map. -/
abbrev PoCostDict := List (String × ℚ)

/-- Result of reconciling one group's cost reports. -/
abbrev ReconResult := TrackingInfoDict × PoCostDict

/-- `clean_csv_tracking`: uppercase, then drop every character outside
`[0-9A-Z,]`. -/
def clean_csv_tracking (tracking : String) : String :=
  String.mk ((pyUpper tracking).toList.filter
    (fun c => c.isDigit || c.isUpper || c = ','))

/-- The `strptime('%Y-%m-%d %H:%M:%S').strftime('%Y-%m-%d')` reformat of
the melul `CREATED DATE` column: for well-formed inputs this keeps the
ten-character date prefix. -/
def melulDate (s : String) : String :=
  String.mk (s.toList.take 10)

/-- One raw melul CSV row, with the columns the fold reads.  `TOTAL` is
the numeric value `float(row['TOTAL'])` produces (the claims only involve
exactly representable decimal sums). -/
structure MelulRow where
  VOID : String
  VERIFIED : String
  ID : String
  TOTAL : ℚ
  CREATED_DATE : String
  TRACKING_NUMBERS : String
deriving DecidableEq, Repr

/-- The tuple of cleaned tracking numbers of a melul row. -/
def melulTrackingTuple (row : MelulRow) : List String :=
  (((clean_csv_tracking row.TRACKING_NUMBERS |> pySplit) ',').filter
    (fun t => t ≠ "" && pyStrip t ≠ "")).map pyStrip

/-- One iteration of the `for row in csv_rows` loop of
`_melul_get_tracking_pos_costs_maps`. -/
def melulStep (group : String) (st : ReconResult) (row : MelulRow) : ReconResult :=
  let void := row.VOID = "1"
  let verified := row.VERIFIED = "1"
  let po := row.ID
  let cost := row.TOTAL
  let date := melulDate row.CREATED_DATE
  let trackings := (clean_csv_tracking row.TRACKING_NUMBERS |> pySplit) ','
  let st1 :=
    if trackings ≠ [] then
      let tracking_tuple := melulTrackingTuple row
      if cost ≠ 0 then
        let previous_cost :=
          match alookup st.1 tracking_tuple with
          | some info => info.2.1
          | none => 0
        let new_cost := if verified ∧ ¬ void then cost else 0
        (ainsert st.1 tracking_tuple (group, previous_cost + new_cost, date), st.2)
      else st
    else st
  if cost ≠ 0 ∧ po ≠ "" then
    (st1.1, ainsert st1.2 po ((alookup st1.2 po).getD 0 + cost))
  else st1

/-- The row-processing core of `_melul_get_tracking_pos_costs_maps(group,
username, password)`; the CSV download itself is I/O and enters as the
`csv_rows` argument. -/
def melul_get_tracking_pos_costs_maps (group : String) (csv_rows : List MelulRow) :
    ReconResult :=
  csv_rows.foldl (melulStep group) ([], [])

/-! ### The remaining cost adapters

Every other adapter of `group_site_manager.py` that builds tracking-keyed
ledger entries is embedded below from the point where a raw row's cell
texts are in hand (the selenium/bs4/CSV extraction that produces them is
I/O and enters as the row-list argument).  A failed `float(...)`
conversion raises in the source; the folds model it as `none` (the
statements proved below all hypothesise rows that parse, where the two
semantics agree). -/

/-- Python `s.replace(c, '')` chained over the given characters. -/
def pyRemoveChars (cs : List Char) (s : String) : String :=
  String.mk (s.toList.filter (fun c => decide (c ∉ cs)))

/-- Python `c in s` for a single character. -/
def containsChar (s : String) (c : Char) : Bool :=
  s.toList.contains c

/-- Python `s.startswith(p)`. -/
def pyStartsWith (s p : String) : Bool :=
  decide (s.toList.take p.toList.length = p.toList)

/-- The first match of `re.search(r'\$([0-9,.]+)', s)`: the run of
digits, commas and dots after the leftmost dollar sign that is followed
by at least one such character. -/
def dollarAmountGo : List Char → Option String
  | [] => none
  | '$' :: rest =>
    let run := rest.takeWhile (fun c => c.isDigit || c = ',' || c = '.')
    if run ≠ [] then some (String.mk run) else dollarAmountGo rest
  | _ :: rest => dollarAmountGo rest

/-- `match.group(1)` of `re.search(r'\$([0-9,.]+)', s)`, if any. -/
def dollarAmount? (s : String) : Option String :=
  dollarAmountGo s.toList

/-- `add_bfmr_cost_if_nonempty(result, tracking, cost, date)`: post the
cost onto the key's accumulated total unless it is zero. -/
def add_bfmr_cost_if_nonempty (m : TrackingInfoDict) (tracking : String)
    (cost : ℚ) (date : String) : TrackingInfoDict :=
  if cost ≠ 0 then
    let previous_total :=
      match alookup m [tracking] with
      | some info => info.2.1
      | none => 0
    ainsert m [tracking] ("bfmr", previous_total + cost, date)
  else m

/-- The stride-5 walk of `fill_busted_bfmr_costs`: each group of five td
texts is one entry, `tds[i*5]` the tracking and `tds[i*5+4]` the money
text; a trailing group of fewer than five cells is ignored
(`range(len(tds)//5)`). -/
def fill_busted_bfmr_go (date : String) :
    Option TrackingInfoDict → List String → Option TrackingInfoDict
  | st, t0 :: _ :: _ :: _ :: t4 :: rest =>
    let st' := st.bind fun m =>
      let tracking := pyStrip (pyUpper t0)
      match parseFloat? (pyRemoveChars [',', '$'] t4) with
      | none => none
      | some total =>
        let previous_total :=
          match alookup m [tracking] with
          | some info => info.2.1
          | none => 0
        some (ainsert m [tracking] ("bfmr", previous_total + total, date))
    fill_busted_bfmr_go date st' rest
  | st, _ => st

/-- `fill_busted_bfmr_costs(result, table, date)`: the td texts of the
second `tr` of the table enter as `tds`; the function shaves off the two
"total amount" cells and walks the rest in strides of five. -/
def fill_busted_bfmr_costs (st : Option TrackingInfoDict) (tds : List String)
    (date : String) : Option TrackingInfoDict :=
  fill_busted_bfmr_go date st (tds.dropLast.dropLast)

/-- `fill_standard_bfmr_costs(result, table, date)`: `rows` holds the td
texts of each `tr` of the table; the first row (the header) is skipped;
rows without exactly five cells are skipped; td 0 is the tracking and
td 4 the money text. -/
def fill_standard_bfmr_costs (st : Option TrackingInfoDict)
    (rows : List (List String)) (date : String) : Option TrackingInfoDict :=
  (rows.drop 1).foldl
    (fun st tds =>
      st.bind fun m =>
        if tds.length ≠ 5 then some m
        else
          let tracking := pyStrip (pyUpper (tds.getD 0 ""))
          match parseFloat? (pyRemoveChars [',', '$'] (pyStrip (tds.getD 4 ""))) with
          | none => none
          | some total =>
            let previous_total :=
              match alookup m [tracking] with
              | some info => info.2.1
              | none => 0
            some (ainsert m [tracking] ("bfmr", previous_total + total, date)))
    st

/-- The scan of `fill_2020_12_22_bfmr_costs` over the middle rows: a row
containing a dollar sign adds its first `\$([0-9,.]+)` amount to the
running cost of the current tracking (an unmatched dollar row raises,
modelled `none`); any other row flushes the current (tracking, cost)
through `add_bfmr_cost_if_nonempty` and starts a new tracking; the last
tracking is flushed at the end (the fence post). -/
def fill_2020_12_22_go (date : String) :
    Option TrackingInfoDict → String → ℚ → List String → Option TrackingInfoDict
  | st, tracking, cost, [] =>
    st.map (fun m => add_bfmr_cost_if_nonempty m tracking cost date)
  | st, tracking, cost, rowText :: rest =>
    if containsChar rowText '$' then
      match dollarAmount? rowText with
      | none => none
      | some g =>
        match parseFloat? g with
        | none => none
        | some v => fill_2020_12_22_go date st tracking (cost + v) rest
    else
      fill_2020_12_22_go date
        (st.map (fun m => add_bfmr_cost_if_nonempty m tracking cost date))
        (pyStrip rowText) 0 rest

/-- `fill_2020_12_22_bfmr_costs(result, table, date)`: `texts` holds the
text of each `tr`; the header row is dropped, the first remaining row is
the first tracking (quitting if it is an old-format dollar row, raising
an IndexError — `none` — if there is no such row), the last row (the
total amount) is dropped, and the rest is scanned. -/
def fill_2020_12_22_bfmr_costs (st : Option TrackingInfoDict)
    (texts : List String) (date : String) : Option TrackingInfoDict :=
  match texts.drop 1 with
  | [] => none
  | r0 :: rest =>
    let tracking := pyStrip r0
    if containsChar tracking '$' then st
    else fill_2020_12_22_go date st tracking 0 rest.dropLast

/-- One row of a local recon CSV (`_recon_via_csvs`). -/
structure CsvReconRow where
  trackingNumber : String
  total : String
deriving DecidableEq, Repr

/-- One iteration of the row loop of `_recon_via_csvs(group)` (the rows
of all CSV files of the group's folder are concatenated in read
order). -/
def recon_via_csvs_step (group : String) (st : Option TrackingInfoDict)
    (row : CsvReconRow) : Option TrackingInfoDict :=
  st.bind fun m =>
    let tracking := clean_csv_tracking row.trackingNumber
    match parseFloat? (pyRemoveChars ['$', ',', '-'] row.total) with
    | none => none
    | some total =>
      let old_value :=
        match alookup m [tracking] with
        | some info => info.2.1
        | none => 0
      some (ainsert m [tracking] (group, old_value + total, ""))

/-- The row-processing core of `_recon_via_csvs(group)`. -/
def recon_via_csvs (group : String) (rows : List CsvReconRow) :
    Option TrackingInfoDict :=
  rows.foldl (recon_via_csvs_step group) (some [])

/-- One row of the EMBDeals CSV export (`_get_emb_tracking_pos_prices`). -/
structure EmbRow where
  tracking : String
  is_verified : String
  total : String
deriving DecidableEq, Repr

/-- One iteration of the row loop of `_get_emb_tracking_pos_prices`:
`total = float(row['total']) if row['total'] and verified else 0`, then
the key is posted with `old_value + total` — a void/unverified or blank
row still records the key, contributing zero. -/
def emb_step (st : Option TrackingInfoDict) (row : EmbRow) :
    Option TrackingInfoDict :=
  st.bind fun m =>
    let tracking := clean_csv_tracking row.tracking
    let verified := row.is_verified = "True"
    match (if row.total ≠ "" ∧ verified then parseFloat? row.total else some 0) with
    | none => none
    | some total =>
      let old_value :=
        match alookup m [tracking] with
        | some info => info.2.1
        | none => 0
      some (ainsert m [tracking] ("embdeals", old_value + total, ""))

/-- The row-processing core of `_get_emb_tracking_pos_prices`. -/
def emb_get_tracking_pos_prices (rows : List EmbRow) : Option TrackingInfoDict :=
  rows.foldl emb_step (some [])

/-- One iteration of the table-row loop of
`_get_oaks_tracking_pos_prices` (`tds` holds the td texts of the row;
the pages of the paginated report are concatenated): short rows and
header/blank tracking rows are skipped, td 1 is the tracking and td 5
the money text, a blank cleaned money text contributes 0. -/
def oaks_step (st : Option TrackingInfoDict) (tds : List String) :
    Option TrackingInfoDict :=
  st.bind fun m =>
    if tds.length < 6 then some m
    else
      let tracking := pyStrip (pyUpper (tds.getD 1 ""))
      if tracking = "" ∨ pyStartsWith tracking "TRACKING" then some m
      else
        let cost := pyStrip (pyRemoveChars ['$', ',', '-'] (tds.getD 5 ""))
        match (if cost ≠ "" then parseFloat? cost else some 0) with
        | none => none
        | some cost_value =>
          let previous_cost :=
            match alookup m [tracking] with
            | some info => info.2.1
            | none => 0
          some (ainsert m [tracking] ("oaks", previous_cost + cost_value, ""))

/-- The row-processing core of `_get_oaks_tracking_pos_prices`. -/
def oaks_get_tracking_pos_prices (rows : List (List String)) :
    Option TrackingInfoDict :=
  rows.foldl oaks_step (some [])

/-- One row of the YRCW CSV export (`_get_yrcw_tracking_pos_prices`). -/
structure YrcwRow where
  trackingNum : String
  value : String
deriving DecidableEq, Repr

/-- One iteration of the row loop of `_get_yrcw_tracking_pos_prices`:
rows with a blank `Value` are skipped; otherwise the value is added to
the tracking ledger entry and to the defaultdict `po_cost_map`. -/
def yrcw_step (st : Option (TrackingInfoDict × PoCostDict)) (row : YrcwRow) :
    Option (TrackingInfoDict × PoCostDict) :=
  st.bind fun mp =>
    let tracking := clean_csv_tracking row.trackingNum
    if row.value = "" then some mp
    else
      match parseFloat? (pyRemoveChars ['$', ','] row.value) with
      | none => none
      | some value =>
        let old_value :=
          match alookup mp.1 [tracking] with
          | some info => info.2.1
          | none => 0
        some (ainsert mp.1 [tracking] ("yrcw", old_value + value, ""),
          ainsert mp.2 tracking ((alookup mp.2 tracking).getD 0 + value))

/-- The row-processing core of `_get_yrcw_tracking_pos_prices`. -/
def yrcw_get_tracking_pos_prices (rows : List YrcwRow) :
    Option (TrackingInfoDict × PoCostDict) :=
  rows.foldl yrcw_step (some ([], []))

/-- One row of the gibstrat CSV export
(`_get_gibstrat_tracking_pos_prices`). -/
structure GibstratRow where
  trackingNumber : String
  priceTotal : String
  commissionTotal : String
deriving DecidableEq, Repr

/-- One iteration of the row loop of
`_get_gibstrat_tracking_pos_prices(group)`: blank cleaned price or
commission texts contribute 0, and the entry is posted as
`price_total + commission_total + previous_cost`. -/
def gibstrat_step (group : String) (st : Option TrackingInfoDict)
    (row : GibstratRow) : Option TrackingInfoDict :=
  st.bind fun m =>
    let tracking_number := clean_csv_tracking row.trackingNumber
    let tracking_tuple := [pyStrip tracking_number]
    let price_str := pyRemoveChars ['$', ','] row.priceTotal
    let commission_str := pyRemoveChars ['$', ','] row.commissionTotal
    match (if price_str ≠ "" then parseFloat? price_str else some 0),
        (if commission_str ≠ "" then parseFloat? commission_str else some 0) with
    | some price_total, some commission_total =>
      let previous_cost :=
        match alookup m tracking_tuple with
        | some info => info.2.1
        | none => 0
      some (ainsert m tracking_tuple
        (group, price_total + commission_total + previous_cost, "unknown"))
    | _, _ => none

/-- The row-processing core of `_get_gibstrat_tracking_pos_prices`. -/
def gibstrat_get_tracking_pos_prices (group : String) (rows : List GibstratRow) :
    Option TrackingInfoDict :=
  rows.foldl (gibstrat_step group) (some [])

/-- The fan-out of `_retrieve_usa_tracking_price` inside
`_get_usa_tracking_pos_prices`: every tracking number of the USA entries
gets its cost fetched from the per-tracking endpoint — a function of the
tracking number within a run, entering here as `price` (`none` models a
fetch failure, which is logged and skipped).  Each lookup assigns
`tracking_tuples_to_prices[(tn,)] = ('usa', cost, '')`; since a key's
write depends only on that key, the completion order of the concurrent
tasks is immaterial and the fan-out is embedded as a left fold. -/
def retrieve_usa_tracking_prices (price : String → Option ℚ)
    (tracking_numbers : List String) : TrackingInfoDict :=
  tracking_numbers.foldl
    (fun m tracking_number =>
      match price tracking_number with
      | some cost => ainsert m [tracking_number] ("usa", cost, "")
      | none => m)
    []

/-! ## Retrying executor

`get_new_tracking_pos_costs_maps_with_retry` and `_upload_to_group` wrap
a fallible operation in a bounded retry loop.  The operation is modelled
as a function from the attempt number to its outcome; the aggregate
failure (`Exception("Exceeded retry limit", last_exc)` resp.
`raise ... from last_ex`) carries the last underlying error. -/

/-- Outcome of a retry loop: a successful result, or the aggregate
failure carrying the last underlying error (`none` only if the bound
were zero). -/
inductive RetryResult (ε α : Type) where
  | ok : α → RetryResult ε α
  | exceededRetryLimit : Option ε → RetryResult ε α
deriving DecidableEq, Repr

/-- The `for i in range(bound): try ... except ...` loop with `fuel`
attempts remaining, `i` the next attempt number, and `last` the last
error seen. -/
def retryGo {ε α : Type} (op : ℕ → Except ε α) : ℕ → ℕ → Option ε → RetryResult ε α
  | _, 0, last => .exceededRetryLimit last
  | i, fuel + 1, _ =>
    match op i with
    | .ok a => .ok a
    | .error e => retryGo op (i + 1) fuel (some e)

/-- A bounded retry loop starting from attempt 0 with no error seen. -/
def retryLoop {ε α : Type} (bound : ℕ) (op : ℕ → Except ε α) : RetryResult ε α :=
  retryGo op 0 bound none

/-- `get_new_tracking_pos_costs_maps_with_retry`: five attempts at the
wrapped cost fetch. -/
def get_new_tracking_pos_costs_maps_with_retry {ε α : Type}
    (op : ℕ → Except ε α) : RetryResult ε α :=
  retryLoop 5 op

/-- `_upload_to_group`: ten attempts (`MAX_UPLOAD_ATTEMPTS`) at the
wrapped upload body. -/
def upload_to_group {ε α : Type} (op : ℕ → Except ε α) : RetryResult ε α :=
  retryLoop 10 op

theorem retryGo_ok {ε α : Type} (op : ℕ → Except ε α) :
    ∀ (fuel s k : ℕ) (last : Option ε) (a : α), k < fuel →
      op (s + k) = .ok a → (∀ j, j < k → ∃ e, op (s + j) = .error e) →
      retryGo op s fuel last = .ok a := by
  intro fuel
  induction fuel with
  | zero => intro s k last a hk; omega
  | succ n ih =>
    intro s k last a hk hok hprev
    match k with
    | 0 =>
      simp only [Nat.add_zero] at hok
      simp [retryGo, hok]
    | k' + 1 =>
      obtain ⟨e, he⟩ := hprev 0 (Nat.succ_pos k')
      simp only [Nat.add_zero] at he
      simp only [retryGo, he]
      apply ih (s + 1) k' (some e) a (by omega)
      · rw [show s + 1 + k' = s + (k' + 1) by omega]
        exact hok
      · intro j hj
        obtain ⟨e', he'⟩ := hprev (j + 1) (by omega)
        exact ⟨e', by rw [show s + 1 + j = s + (j + 1) by omega]; exact he'⟩

theorem retryGo_all_fail {ε α : Type} (op : ℕ → Except ε α) (f : ℕ → ε) :
    ∀ (fuel s : ℕ) (last : Option ε), 0 < fuel →
      (∀ j, j < fuel → op (s + j) = .error (f (s + j))) →
      retryGo op s fuel last = .exceededRetryLimit (some (f (s + fuel - 1))) := by
  intro fuel
  induction fuel with
  | zero => intro s last h; omega
  | succ n ih =>
    intro s last _ hfail
    have h0 := hfail 0 (Nat.succ_pos n)
    simp only [Nat.add_zero] at h0
    simp only [retryGo, h0]
    match n with
    | 0 => simp [retryGo]
    | m + 1 =>
      have := ih (s + 1) (some (f s)) (Nat.succ_pos m) (fun j hj => by
        rw [show s + 1 + j = s + (j + 1) by omega]
        exact hfail (j + 1) (by omega))
      rw [this]
      have harg : s + 1 + (m + 1) - 1 = s + (m + 1 + 1) - 1 := by omega
      rw [harg]

theorem retryGo_exhausted_inv {ε α : Type} (op : ℕ → Except ε α) :
    ∀ (fuel s : ℕ) (last l : Option ε),
      retryGo op s fuel last = .exceededRetryLimit l →
      ∀ j, j < fuel → ∃ e, op (s + j) = .error e := by
  intro fuel
  induction fuel with
  | zero => intro s last l _ j hj; omega
  | succ n ih =>
    intro s last l hrun j hj
    match hop : op s with
    | .ok a => simp [retryGo, hop] at hrun
    | .error e =>
      simp only [retryGo, hop] at hrun
      match j with
      | 0 => exact ⟨e, by simpa using hop⟩
      | j' + 1 =>
        obtain ⟨e', he'⟩ := ih (s + 1) (some e) l hrun j' (by omega)
        exact ⟨e', by rw [show s + (j' + 1) = s + 1 + j' by omega]; exact he'⟩

/-! ## Row import (`from_row`)

A spreadsheet cell may hold a string or a boolean (the Manual Override
column round-trips booleans).  `str(...)`, truthiness and `float(...)`
are modelled per cell.  A missing column takes the documented default; a
header column whose index is beyond the row, or a non-numeric value in a
numeric cell, makes the import fail (`IndexError` / `ValueError` in the
source), modelled as `none`. -/

/-- A spreadsheet cell value. -/
inductive Cell where
  | str : String → Cell
  | bool : Bool → Cell
deriving DecidableEq, Repr

/-- Python `str(cell)`. -/
def Cell.pyStr : Cell → String
  | .str s => s
  | .bool b => if b then "True" else "False"

/-- Python truthiness of a cell. -/
def Cell.truthy : Cell → Bool
  | .str s => s ≠ ""
  | .bool b => b

/-- Python `float(cell)`. -/
def Cell.pyFloat? : Cell → Option ℚ
  | .str s => parseFloat? s
  | .bool b => some (if b then 1 else 0)

/-- `row[header.index(name)]`: `none` models the `IndexError` raised when
the row is shorter than the column index. -/
def fetchCell (header : List String) (row : List Cell) (name : String) : Option Cell :=
  row.get? (List.indexOf name header)

/-- An always-split set column (`Orders`, `Trackings`):
`set([o.strip() for o in str(row[...]).split(',')])` if the column is
present, else the empty set. -/
def readSetAlways (header : List String) (row : List Cell) (name : String) :
    Option (List String) :=
  if name ∈ header then
    (fetchCell header row name).map
      (fun cl => pySet ((pySplit cl.pyStr ',').map pyStrip))
  else some []

/-- A numeric column (`Amount Billed`, `Amount Reimbursed`,
`Manual Cost Adjustment`): the raw cell if present else `''`, then
`float(value) if value else 0.0`. -/
def readNumeric (header : List String) (row : List Cell) (name : String) :
    Option ℚ :=
  match (if name ∈ header then fetchCell header row name else some (Cell.str "")) with
  | none => none
  | some cl => if cl.truthy then cl.pyFloat? else some 0

/-- A guarded set column (`Non-Reimbursed Trackings`, `POs`):
`str(row[...])` if present else `""`, then split-and-trim only when the
string is non-empty, else the empty set. -/
def readGuardedSet (header : List String) (row : List Cell) (name : String) :
    Option (List String) :=
  match (if name ∈ header then (fetchCell header row name).map Cell.pyStr
         else some "") with
  | none => none
  | some s => some (if s ≠ "" then pySet ((pySplit s ',').map pyStrip) else [])

/-- A raw column stored as a string (`Last Ship Date`,
`Last Delivery Date (Est.)`, `Group`, `To Email`, `Notes`): the cell if
present else the given default. -/
def readRawStr (header : List String) (row : List Cell) (name dflt : String) :
    Option String :=
  if name ∈ header then (fetchCell header row name).map Cell.pyStr else some dflt

/-- The `Manual Override` column: the source stores the raw cell value
and every later use of the attribute is a boolean test, so its truth
value is recorded; `False` when the column is absent. -/
def readOverride (header : List String) (row : List Cell) : Option Bool :=
  if "Manual Override" ∈ header then
    (fetchCell header row "Manual Override").map Cell.truthy
  else some false

/-- The `Cancelled Items` column: `str(row[...])` if present else `""`,
then a split-and-trimmed list (not a set) when non-empty. -/
def readCancelled (header : List String) (row : List Cell) : Option (List String) :=
  match (if "Cancelled Items" ∈ header then
           (fetchCell header row "Cancelled Items").map Cell.pyStr
         else some "") with
  | none => none
  | some s => some (if s ≠ "" then (pySplit s ',').map pyStrip else [])

/-- `from_row(header, row)` from `lib/clusters.py`. -/
def from_row (header : List String) (row : List Cell) : Option Cluster := do
  let orders ← readSetAlways header row "Orders"
  let trackings ← readSetAlways header row "Trackings"
  let expected_cost ← readNumeric header row "Amount Billed"
  let tracked_cost ← readNumeric header row "Amount Reimbursed"
  let non_reimbursed_trackings ← readGuardedSet header row "Non-Reimbursed Trackings"
  let last_ship_date ← readRawStr header row "Last Ship Date" "0"
  let last_delivery_date ← readRawStr header row "Last Delivery Date (Est.)" ""
  let pos ← readGuardedSet header row "POs"
  let group ← readRawStr header row "Group" ""
  let adjustment ← readNumeric header row "Manual Cost Adjustment"
  let manual_override ← readOverride header row
  let to_email ← readRawStr header row "To Email" ""
  let notes ← readRawStr header row "Notes" ""
  let cancelled_items ← readCancelled header row
  pure
    { orders := orders
      trackings := trackings
      group := group
      expected_cost := expected_cost
      tracked_cost := tracked_cost
      last_ship_date := last_ship_date
      purchase_orders := pos
      email_ids := []
      adjustment := adjustment
      to_email := to_email
      notes := notes
      manual_override := manual_override
      non_reimbursed_trackings := non_reimbursed_trackings
      cancelled_items := cancelled_items
      last_delivery_date := last_delivery_date }

/-! ## Helper lemmas -/

theorem listLtChar_iff : ∀ as bs : List Char, listLtChar as bs = true ↔ as < bs := by
  intro as
  induction as with
  | nil =>
    intro bs
    cases bs with
    | nil =>
      simp only [listLtChar, Bool.false_eq_true, false_iff]
      intro h
      cases h
    | cons b bs =>
      simp only [listLtChar, true_iff]
      exact List.Lex.nil
  | cons a as ih =>
    intro bs
    cases bs with
    | nil =>
      simp only [listLtChar, Bool.false_eq_true, false_iff]
      intro h
      cases h
    | cons b bs =>
      unfold listLtChar
      by_cases hab : a < b
      · simp only [if_pos hab, true_iff]
        exact List.Lex.rel hab
      · by_cases hba : b < a
        · simp only [if_neg hab, if_pos hba, Bool.false_eq_true, false_iff]
          intro h
          cases h with
          | cons _ => exact absurd hba (lt_irrefl a)
          | rel h' => exact hab h'
        · have hab' : a = b := le_antisymm (le_of_not_lt hba) (le_of_not_lt hab)
          subst hab'
          simp only [if_neg hab, if_neg hba]
          rw [ih bs]
          constructor
          · intro h
            exact List.Lex.cons h
          · intro h
            cases h with
            | cons h3 => exact h3
            | rel h' => exact absurd h' hab

theorem pyStrLt_iff (a b : String) : pyStrLt a b = true ↔ a < b := by
  rw [String.lt_iff_toList_lt]
  exact listLtChar_iff a.toList b.toList

theorem pyMax_eq_max (a b : String) : pyMax a b = max a b := by
  unfold pyMax
  by_cases h : a < b
  · rw [if_pos ((pyStrLt_iff a b).mpr h), max_eq_right (le_of_lt h)]
  · rw [if_neg (fun hb => h ((pyStrLt_iff a b).mp hb)),
      max_eq_left (le_of_not_lt h)]

theorem setAdd_toFinset (s : List String) (x : String) :
    (setAdd s x).toFinset = insert x s.toFinset := by
  unfold setAdd
  split
  case isTrue h =>
    ext y
    simp only [List.mem_toFinset, Finset.mem_insert]
    constructor
    · intro hy
      exact Or.inr hy
    · rintro (rfl | hy)
      · exact h
      · exact hy
  case isFalse h =>
    ext y
    simp only [List.mem_toFinset, Finset.mem_insert, List.mem_append,
      List.mem_singleton]
    tauto

theorem setUnion_toFinset (s t : List String) :
    (setUnion s t).toFinset = s.toFinset ∪ t.toFinset := by
  induction t generalizing s with
  | nil => simp [setUnion]
  | cons x rest ih =>
    have hstep : setUnion s (x :: rest) = setUnion (setAdd s x) rest := rfl
    rw [hstep, ih, setAdd_toFinset]
    ext y
    simp only [Finset.mem_union, Finset.mem_insert, List.mem_toFinset,
      List.mem_cons]
    tauto

theorem findSome?_eq_of_exists {α β : Type} (f : α → Option β) :
    ∀ l : List α, (∃ x ∈ l, f x ≠ none) →
      ∃ x ∈ l, f x ≠ none ∧ l.findSome? f = f x := by
  intro l
  induction l with
  | nil => rintro ⟨x, hx, _⟩; cases hx
  | cons a rest ih =>
    intro h
    match hfa : f a with
    | some v =>
      exact ⟨a, List.mem_cons_self a rest, by simp [hfa],
        by simp [List.findSome?_cons, hfa]⟩
    | none =>
      have h' : ∃ x ∈ rest, f x ≠ none := by
        rcases h with ⟨x, hx, hfx⟩
        rcases List.mem_cons.mp hx with rfl | hx'
        · exact absurd hfa hfx
        · exact ⟨x, hx', hfx⟩
      obtain ⟨x, hx, h1, h2⟩ := ih h'
      exact ⟨x, List.mem_cons_of_mem a hx, h1,
        by simp [List.findSome?_cons, hfa, h2]⟩

theorem findSome?_eq_none_of_all {α β : Type} (f : α → Option β) :
    ∀ l : List α, (∀ x ∈ l, f x = none) → l.findSome? f = none := by
  intro l
  induction l with
  | nil => intro _; rfl
  | cons a rest ih =>
    intro h
    have ha := h a (List.mem_cons_self a rest)
    simp [List.findSome?_cons, ha, ih (fun x hx => h x (List.mem_cons_of_mem a hx))]

theorem pySplit_ne_nil (s : String) (sep : Char) : pySplit s sep ≠ [] := by
  unfold pySplit
  suffices h : ∀ (l acc : List Char), splitOnCharAux sep l acc ≠ [] by
    intro hnil
    exact h s.toList [] (by simpa using hnil)
  intro l
  induction l with
  | nil => intro acc; simp [splitOnCharAux]
  | cons c cs ih =>
    intro acc
    unfold splitOnCharAux
    split
    · simp
    · exact ih (c :: acc)

/-! ## Claim theorems -/

/-- The pre-existing cluster used in the c1 counterexample run. -/
def c1cluster : Cluster := { Cluster.new "g" with orders := ["O1"] }

/-- An incoming tracking whose only order ID already belongs to
`c1cluster`. -/
def c1tracking : Tracking := ⟨"T1", "g", ["O1"], "0", "0", "e"⟩

/-- Claim C1 (code bug): the one-order-one-cluster partition is violated by the code.
`update_clusters` initialises `order_to_cluster` to the empty dictionary
and never scans the pre-existing clusters, so a tracking whose order ID
"O1" is already owned by an existing cluster creates a second cluster
also holding "O1"; the merge engine (which merges only on shared
purchase-order/group pairs or email IDs, never on shared orders) leaves
both clusters in place. -/
theorem c1_update_clusters_duplicates_order :
    (update_clusters [c1cluster] [c1tracking]).length = 2 ∧
    "O1" ∈ ((update_clusters [c1cluster] [c1tracking]).getD 0 default).orders ∧
    "O1" ∈ ((update_clusters [c1cluster] [c1tracking]).getD 1 default).orders ∧
    merge_orders (update_clusters [c1cluster] [c1tracking]) =
      update_clusters [c1cluster] [c1tracking] := by
  refine ⟨by decide, by decide, by decide, ?_⟩
  have hiter : run_merge_iteration (update_clusters [c1cluster] [c1tracking]) =
      update_clusters [c1cluster] [c1tracking] := by decide
  rw [merge_orders_eq, hiter, if_pos rfl]

/-- First cluster built by `Cluster("a")` on the pristine heap. -/
def c2pair1 : ClusterObj × PyHeap := clusterNewObj pyHeapInit "a"

/-- Second, independently constructed cluster `Cluster("b")`. -/
def c2pair2 : ClusterObj × PyHeap := clusterNewObj c2pair1.2 "b"

/-- A cluster with `non_reimbursed_trackings={"X"}` in freshly allocated
containers, as `from_row` would build it. -/
def c2pair3 : ClusterObj × PyHeap := clusterFreshObj c2pair2.2 [] [] [] [] ["X"] [] "c"

/-- The heap after `c2pair1.merge_with(c2pair3)`. -/
def c2pair4 : ClusterObj × PyHeap := mergeWithObj c2pair3.2 c2pair1.1 c2pair3.1

/-- A cluster constructed by `Cluster("d")` after the merge. -/
def c2pair5 : ClusterObj × PyHeap := clusterNewObj c2pair4.2 "d"

/-- Claim C2 (code bug): independently constructed clusters do share container identity.
`Cluster.__init__` passes only ten positional arguments to `_initiate`,
so `non_reimbursed_trackings` and `cancelled_items` fall back to the
mutable default containers evaluated once at import time: two clusters
built by `Cluster(group)` reference the same set object, merging a
cluster with a non-empty `non_reimbursed_trackings` into the first is
visible through the second, and a cluster constructed afterwards starts
with the polluted container instead of an empty one.  (The explicitly
passed `purchase_orders` and `email_ids` containers are fresh.) -/
theorem c2_shared_default_containers :
    c2pair1.1.non_reimbursed_trackings = c2pair2.1.non_reimbursed_trackings ∧
    c2pair1.1.cancelled_items = c2pair2.1.cancelled_items ∧
    c2pair1.1.purchase_orders ≠ c2pair2.1.purchase_orders ∧
    c2pair1.1.email_ids ≠ c2pair2.1.email_ids ∧
    readCell c2pair2.2 c2pair2.1.non_reimbursed_trackings = [] ∧
    readCell c2pair4.2 c2pair2.1.non_reimbursed_trackings = ["X"] ∧
    readCell c2pair5.2 c2pair5.1.non_reimbursed_trackings = ["X"] := by
  refine ⟨by decide, by decide, by decide, by decide, by decide, ?_, ?_⟩
  · show readCell (mergeWithObj c2pair3.2 c2pair1.1 c2pair3.1).2
      c2pair2.1.non_reimbursed_trackings = ["X"]
    decide
  · show readCell c2pair5.2 (clusterNewObj c2pair4.2 "d").1.non_reimbursed_trackings = ["X"]
    decide

/-- Claim C3: the manual-override flag is cleared exactly when the tracking
introduces a new order ID or a new tracking number, and is preserved
when it introduces neither. -/
theorem c3_manual_override_clear_or_preserve (c : Cluster) (t : Tracking) :
    (((∃ o ∈ t.order_ids, o ∉ c.orders) ∨ t.tracking_number ∉ c.trackings) →
      (applyTracking c t).manual_override = false) ∧
    ((∀ o ∈ t.order_ids, o ∈ c.orders) → t.tracking_number ∈ c.trackings →
      (applyTracking c t).manual_override = c.manual_override) := by
  have hcond : ((t.order_ids.any fun o => decide (o ∉ c.orders)) ||
      decide (t.tracking_number ∉ c.trackings)) = true ↔
      ((∃ o ∈ t.order_ids, o ∉ c.orders) ∨ t.tracking_number ∉ c.trackings) := by
    simp [List.any_eq_true]
  constructor
  · intro h
    unfold applyTracking
    simp only []
    rw [if_pos (hcond.mpr h)]
  · intro h1 h2
    unfold applyTracking
    simp only []
    rw [if_neg]
    intro hcon
    rcases hcond.mp hcon with ⟨o, ho, hno⟩ | hnt
    · exact hno (h1 o ho)
    · exact hnt h2

/-- Cluster for the c3 witness: override set, "O1" and "T1" present. -/
def c3cluster : Cluster :=
  { Cluster.new "g" with orders := ["O1"], trackings := ["T1"], manual_override := true }

/-- Tracking for the c3 witness introducing nothing new. -/
def c3tracking : Tracking := ⟨"T1", "g", ["O1"], "0", "0", "e"⟩

/-- Tracking for the c3 witness introducing a new tracking number. -/
def c3trackingNew : Tracking := ⟨"T2", "g", ["O1"], "0", "0", "e"⟩

theorem c3_manual_override_witness :
    (applyTracking c3cluster c3tracking).manual_override = true ∧
    (applyTracking c3cluster c3trackingNew).manual_override = false := by
  constructor
  · have h := (c3_manual_override_clear_or_preserve c3cluster c3tracking).2
      (by decide) (by decide)
    rw [h]
    decide
  · exact (c3_manual_override_clear_or_preserve c3cluster c3trackingNew).1
      (Or.inr (by decide))

/-- Claim C4: `merge_with` leaves the receiver with the set unions of the five
container fields, the sums of the three cost fields, the maxima of the
two date fields, the documented group/notes concatenation rules, the
concatenation (with duplicates) of `cancelled_items`, and a cleared
`manual_override` whenever either side had it set. -/
theorem c4_merge_with_fields (a b : Cluster) :
    ((a.manual_override = true ∨ b.manual_override = true) →
      (a.merge_with b).manual_override = false) ∧
    (a.merge_with b).orders.toFinset = a.orders.toFinset ∪ b.orders.toFinset ∧
    (a.merge_with b).trackings.toFinset = a.trackings.toFinset ∪ b.trackings.toFinset ∧
    (a.merge_with b).purchase_orders.toFinset =
      a.purchase_orders.toFinset ∪ b.purchase_orders.toFinset ∧
    (a.merge_with b).email_ids.toFinset = a.email_ids.toFinset ∪ b.email_ids.toFinset ∧
    (a.merge_with b).non_reimbursed_trackings.toFinset =
      a.non_reimbursed_trackings.toFinset ∪ b.non_reimbursed_trackings.toFinset ∧
    (a.merge_with b).expected_cost = a.expected_cost + b.expected_cost ∧
    (a.merge_with b).tracked_cost = a.tracked_cost + b.tracked_cost ∧
    (a.merge_with b).adjustment = a.adjustment + b.adjustment ∧
    (a.merge_with b).last_ship_date = max a.last_ship_date b.last_ship_date ∧
    (a.merge_with b).last_delivery_date = max a.last_delivery_date b.last_delivery_date ∧
    (a.merge_with b).group =
      (if pyStrip a.group = pyStrip b.group then a.group
       else a.group ++ ", " ++ pyStrip b.group) ∧
    (a.merge_with b).notes =
      (if a.notes ≠ "" ∧ b.notes ≠ "" then a.notes ++ ", " ++ b.notes
       else if b.notes ≠ "" then b.notes else a.notes) ∧
    (a.merge_with b).cancelled_items = a.cancelled_items ++ b.cancelled_items := by
  refine ⟨?_, setUnion_toFinset _ _, setUnion_toFinset _ _, setUnion_toFinset _ _,
    setUnion_toFinset _ _, setUnion_toFinset _ _, rfl, rfl, rfl,
    pyMax_eq_max _ _, pyMax_eq_max _ _, rfl, rfl, rfl⟩
  intro h
  unfold Cluster.merge_with
  simp only []
  rw [if_pos]
  rcases h with h | h <;> simp [h]

/-- First cluster of the c4 witness (override set, two orders, a note). -/
def c4a : Cluster :=
  { Cluster.new "ga" with
      orders := ["O1", "O2"]
      trackings := ["TA"]
      manual_override := true
      notes := "na"
      cancelled_items := ["x"] }

/-- Second cluster of the c4 witness. -/
def c4b : Cluster :=
  { Cluster.new "gb" with
      orders := ["O2", "O3"]
      trackings := ["TB"]
      notes := "nb"
      cancelled_items := ["x"] }

theorem c4_merge_with_witness :
    (c4a.merge_with c4b).manual_override = false ∧
    (c4a.merge_with c4b).orders.toFinset = c4a.orders.toFinset ∪ c4b.orders.toFinset ∧
    (c4a.merge_with c4b).cancelled_items = ["x", "x"] ∧
    (c4a.merge_with c4b).notes = "na, nb" := by
  have h := c4_merge_with_fields c4a c4b
  refine ⟨h.1 (Or.inl (by decide)), h.2.1, ?_, ?_⟩
  · rw [h.2.2.2.2.2.2.2.2.2.2.2.2.2]
    decide
  · rw [h.2.2.2.2.2.2.2.2.2.2.2.2.1]
    decide

/-- Claim C5: `merge_orders` is idempotent — applying it to its own output
returns that output unchanged (same count, same field values). -/
theorem c5_merge_orders_idempotent (clusters : List Cluster) :
    merge_orders (merge_orders clusters) = merge_orders clusters := by
  rw [merge_orders_eq (merge_orders clusters), merge_orders_fixed]
  simp

/-- Claim C6: termination of `merge_orders` — a pass never grows the cluster
list; a pass that leaves the count unchanged changes nothing (ending the
loop); and the returned fixed point equals some iterate of
`run_merge_iteration` reached within (initial count − 1) passes. -/
theorem c6_merge_orders_termination :
    (∀ clusters : List Cluster,
      (run_merge_iteration clusters).length ≤ clusters.length) ∧
    (∀ clusters : List Cluster,
      (run_merge_iteration clusters).length = clusters.length →
        run_merge_iteration clusters = clusters) ∧
    (∀ clusters : List Cluster, ∃ k, k ≤ clusters.length - 1 ∧
        merge_orders clusters = run_merge_iteration^[k] clusters) :=
  ⟨run_merge_iteration_length_le, run_merge_iteration_of_length_eq,
    merge_orders_iterate⟩

theorem c6_merge_orders_termination_witness :
    run_merge_iteration [Cluster.new "g"] = [Cluster.new "g"] :=
  c6_merge_orders_termination.2.1 [Cluster.new "g"] (by decide)

/-- Claim C7: `find_by_shared_attr` checks purchase-order/group keys before
email keys — when some `(po, group)` pair of the cluster is in the PO
map, the result is the lookup of such a pair; the email map decides the
result only when no pair matches; and when neither map matches, no
target is returned and `run_merge_iteration`'s step appends the cluster
as a new representative. -/
theorem c7_find_by_shared_attr_priority (c : Cluster)
    (emailTo : List (String × ℕ)) (poGroupTo : List ((String × String) × ℕ)) :
    ((∃ po ∈ c.purchase_orders, alookup poGroupTo (po, c.group) ≠ none) →
      ∃ po ∈ c.purchase_orders, alookup poGroupTo (po, c.group) ≠ none ∧
        find_by_shared_attr c emailTo poGroupTo = alookup poGroupTo (po, c.group)) ∧
    ((∀ po ∈ c.purchase_orders, alookup poGroupTo (po, c.group) = none) →
      find_by_shared_attr c emailTo poGroupTo =
        c.email_ids.findSome? (fun e => alookup emailTo e)) ∧
    ((∀ po ∈ c.purchase_orders, alookup poGroupTo (po, c.group) = none) →
     (∀ e ∈ c.email_ids, alookup emailTo e = none) →
      find_by_shared_attr c emailTo poGroupTo = none) ∧
    (∀ st : MergeState, find_by_shared_attr c st.emailTo st.poGroupTo = none →
      (mergeStep st c).result = st.result ++ [c]) := by
  refine ⟨?_, ?_, ?_, ?_⟩
  · intro h
    obtain ⟨po, hmem, hne, heq⟩ :=
      findSome?_eq_of_exists (fun po => alookup poGroupTo (po, c.group))
        c.purchase_orders h
    refine ⟨po, hmem, hne, ?_⟩
    unfold find_by_shared_attr
    rw [heq]
    match halk : alookup poGroupTo (po, c.group) with
    | some i => rfl
    | none => exact absurd halk hne
  · intro h
    unfold find_by_shared_attr
    rw [findSome?_eq_none_of_all _ c.purchase_orders h]
  · intro hpo hem
    unfold find_by_shared_attr
    rw [findSome?_eq_none_of_all _ c.purchase_orders hpo]
    exact findSome?_eq_none_of_all _ c.email_ids hem
  · intro st hnone
    unfold mergeStep
    rw [hnone]
    simp [fill_maps_result]

/-- Cluster for the c7 witness: one purchase order and one email ID. -/
def c7cluster : Cluster :=
  { Cluster.new "g" with purchase_orders := ["P1"], email_ids := ["E1"] }

theorem c7_find_by_shared_attr_witness :
    find_by_shared_attr c7cluster [("E1", 5)] [(("P1", "g"), 3)] = some 3 ∧
    find_by_shared_attr c7cluster [("E9", 0)] [(("P9", "g"), 0)] = none ∧
    (mergeStep ⟨[Cluster.new "h"], [("E9", 0)], [(("P9", "g"), 0)]⟩ c7cluster).result =
      [Cluster.new "h", c7cluster] := by
  have hmiss :=
    (c7_find_by_shared_attr_priority c7cluster [("E9", 0)] [(("P9", "g"), 0)]).2.2.1
      (by decide) (by decide)
  refine ⟨by decide, hmiss, ?_⟩
  have happ :=
    (c7_find_by_shared_attr_priority c7cluster [("E9", 0)] [(("P9", "g"), 0)]).2.2.2
      ⟨[Cluster.new "h"], [("E9", 0)], [(("P9", "g"), 0)]⟩ hmiss
  simpa using happ

theorem alookup_ainsert {κ β : Type} [DecidableEq κ] (m : List (κ × β)) (k : κ) (v : β) :
    alookup (ainsert m k v) k = some v := by
  simp [alookup, ainsert]

theorem alookup_ainsert_ne {κ β : Type} [DecidableEq κ] (m : List (κ × β))
    (k k' : κ) (v : β) (h : k' ≠ k) : alookup (ainsert m k v) k' = alookup m k' := by
  simp only [ainsert, alookup]
  rw [if_neg (fun he => h he.symm)]

theorem recon_via_csvs_additive (g : String) (rows : List CsvReconRow)
    (r : CsvReconRow) (m : TrackingInfoDict) (q : ℚ)
    (hm : recon_via_csvs g rows = some m)
    (hq : parseFloat? (pyRemoveChars ['$', ',', '-'] r.total) = some q) :
    recon_via_csvs g (rows ++ [r]) =
      some (ainsert m [clean_csv_tracking r.trackingNumber]
        (g, (match alookup m [clean_csv_tracking r.trackingNumber] with
             | some info => info.2.1
             | none => 0) + q, "")) := by
  unfold recon_via_csvs at hm ⊢
  rw [List.foldl_append, hm, List.foldl_cons, List.foldl_nil]
  simp only [recon_via_csvs_step, Option.some_bind]
  rw [hq]

theorem emb_additive_verified (rows : List EmbRow) (r : EmbRow)
    (m : TrackingInfoDict) (q : ℚ)
    (hm : emb_get_tracking_pos_prices rows = some m)
    (htot : r.total ≠ "") (hver : r.is_verified = "True")
    (hq : parseFloat? r.total = some q) :
    emb_get_tracking_pos_prices (rows ++ [r]) =
      some (ainsert m [clean_csv_tracking r.tracking]
        ("embdeals", (match alookup m [clean_csv_tracking r.tracking] with
                      | some info => info.2.1
                      | none => 0) + q, "")) := by
  unfold emb_get_tracking_pos_prices at hm ⊢
  rw [List.foldl_append, hm, List.foldl_cons, List.foldl_nil]
  simp only [emb_step, Option.some_bind]
  rw [if_pos ⟨htot, hver⟩, hq]

theorem emb_void_recorded (rows : List EmbRow) (r : EmbRow)
    (m : TrackingInfoDict)
    (hm : emb_get_tracking_pos_prices rows = some m)
    (hcond : ¬(r.total ≠ "" ∧ r.is_verified = "True")) :
    emb_get_tracking_pos_prices (rows ++ [r]) =
      some (ainsert m [clean_csv_tracking r.tracking]
        ("embdeals", (match alookup m [clean_csv_tracking r.tracking] with
                      | some info => info.2.1
                      | none => 0) + 0, "")) := by
  unfold emb_get_tracking_pos_prices at hm ⊢
  rw [List.foldl_append, hm, List.foldl_cons, List.foldl_nil]
  simp only [emb_step, Option.some_bind]
  rw [if_neg hcond]

theorem oaks_additive (rows : List (List String)) (tds : List String)
    (m : TrackingInfoDict) (q : ℚ)
    (hm : oaks_get_tracking_pos_prices rows = some m)
    (h6 : ¬(tds.length < 6))
    (hskip : ¬(pyStrip (pyUpper (tds.getD 1 "")) = "" ∨
      pyStartsWith (pyStrip (pyUpper (tds.getD 1 ""))) "TRACKING" = true))
    (hq : (if pyStrip (pyRemoveChars ['$', ',', '-'] (tds.getD 5 "")) ≠ "" then
        parseFloat? (pyStrip (pyRemoveChars ['$', ',', '-'] (tds.getD 5 "")))
      else some 0) = some q) :
    oaks_get_tracking_pos_prices (rows ++ [tds]) =
      some (ainsert m [pyStrip (pyUpper (tds.getD 1 ""))]
        ("oaks", (match alookup m [pyStrip (pyUpper (tds.getD 1 ""))] with
                  | some info => info.2.1
                  | none => 0) + q, "")) := by
  unfold oaks_get_tracking_pos_prices at hm ⊢
  rw [List.foldl_append, hm, List.foldl_cons, List.foldl_nil]
  simp only [oaks_step, Option.some_bind]
  rw [if_neg h6, if_neg hskip, hq]

theorem yrcw_additive (rows : List YrcwRow) (r : YrcwRow)
    (m : TrackingInfoDict) (po : PoCostDict) (q : ℚ)
    (hm : yrcw_get_tracking_pos_prices rows = some (m, po))
    (hval : ¬ r.value = "")
    (hq : parseFloat? (pyRemoveChars ['$', ','] r.value) = some q) :
    yrcw_get_tracking_pos_prices (rows ++ [r]) =
      some (ainsert m [clean_csv_tracking r.trackingNum]
          ("yrcw", (match alookup m [clean_csv_tracking r.trackingNum] with
                    | some info => info.2.1
                    | none => 0) + q, ""),
        ainsert po (clean_csv_tracking r.trackingNum)
          ((alookup po (clean_csv_tracking r.trackingNum)).getD 0 + q)) := by
  unfold yrcw_get_tracking_pos_prices at hm ⊢
  rw [List.foldl_append, hm, List.foldl_cons, List.foldl_nil]
  simp only [yrcw_step, Option.some_bind]
  rw [if_neg hval, hq]

theorem gibstrat_additive (g : String) (rows : List GibstratRow)
    (r : GibstratRow) (m : TrackingInfoDict) (qp qc : ℚ)
    (hm : gibstrat_get_tracking_pos_prices g rows = some m)
    (hp : (if pyRemoveChars ['$', ','] r.priceTotal ≠ "" then
        parseFloat? (pyRemoveChars ['$', ','] r.priceTotal)
      else some 0) = some qp)
    (hc : (if pyRemoveChars ['$', ','] r.commissionTotal ≠ "" then
        parseFloat? (pyRemoveChars ['$', ','] r.commissionTotal)
      else some 0) = some qc) :
    gibstrat_get_tracking_pos_prices g (rows ++ [r]) =
      some (ainsert m [pyStrip (clean_csv_tracking r.trackingNumber)]
        (g, qp + qc +
          (match alookup m [pyStrip (clean_csv_tracking r.trackingNumber)] with
           | some info => info.2.1
           | none => 0), "unknown")) := by
  unfold gibstrat_get_tracking_pos_prices at hm ⊢
  rw [List.foldl_append, hm, List.foldl_cons, List.foldl_nil]
  simp only [gibstrat_step, Option.some_bind]
  rw [hp, hc]

theorem add_bfmr_cost_additive (m : TrackingInfoDict) (tracking : String)
    (cost : ℚ) (date : String) (h : cost ≠ 0) :
    add_bfmr_cost_if_nonempty m tracking cost date =
      ainsert m [tracking]
        ("bfmr", (match alookup m [tracking] with
                  | some info => info.2.1
                  | none => 0) + cost, date) := by
  unfold add_bfmr_cost_if_nonempty
  rw [if_pos h]

theorem fill_busted_step_additive (date : String) (m : TrackingInfoDict)
    (t0 t1 t2 t3 t4 : String) (rest : List String) (q : ℚ)
    (hq : parseFloat? (pyRemoveChars [',', '$'] t4) = some q) :
    fill_busted_bfmr_go date (some m) (t0 :: t1 :: t2 :: t3 :: t4 :: rest) =
      fill_busted_bfmr_go date
        (some (ainsert m [pyStrip (pyUpper t0)]
          ("bfmr", (match alookup m [pyStrip (pyUpper t0)] with
                    | some info => info.2.1
                    | none => 0) + q, date)))
        rest := by
  conv_lhs => rw [fill_busted_bfmr_go]
  simp only [Option.some_bind]
  rw [hq]

theorem fill_standard_bfmr_additive (st : Option TrackingInfoDict)
    (rows : List (List String)) (tds : List String) (m : TrackingInfoDict)
    (q : ℚ) (date : String) (hrows : rows ≠ [])
    (hm : fill_standard_bfmr_costs st rows date = some m)
    (h5 : tds.length = 5)
    (hq : parseFloat? (pyRemoveChars [',', '$'] (pyStrip (tds.getD 4 ""))) = some q) :
    fill_standard_bfmr_costs st (rows ++ [tds]) date =
      some (ainsert m [pyStrip (pyUpper (tds.getD 0 ""))]
        ("bfmr", (match alookup m [pyStrip (pyUpper (tds.getD 0 ""))] with
                  | some info => info.2.1
                  | none => 0) + q, date)) := by
  match rows, hrows with
  | r0 :: rtail, _ =>
    unfold fill_standard_bfmr_costs at hm ⊢
    simp only [List.cons_append, List.drop_succ_cons, List.drop_zero] at hm ⊢
    rw [List.foldl_append, hm, List.foldl_cons, List.foldl_nil]
    simp only [Option.some_bind]
    rw [if_neg (by rw [h5]; omega), hq]

theorem usa_go_lookup (price : String → Option ℚ) :
    ∀ (tns : List String) (m : TrackingInfoDict) (tn : String),
      alookup (tns.foldl
        (fun m tracking_number =>
          match price tracking_number with
          | some cost => ainsert m [tracking_number] ("usa", cost, "")
          | none => m) m) [tn] =
      match price tn with
      | some c => if tn ∈ tns then some ("usa", c, "") else alookup m [tn]
      | none => alookup m [tn] := by
  intro tns
  induction tns with
  | nil =>
    intro m tn
    cases price tn <;> simp
  | cons t rest ih =>
    intro m tn
    rw [List.foldl_cons, ih]
    by_cases hptn : ∃ c, price tn = some c
    · obtain ⟨c, hc⟩ := hptn
      rw [hc]
      by_cases hmem : tn ∈ rest
      · simp [hmem]
      · simp only [if_neg hmem, List.mem_cons]
        by_cases het : tn = t
        · subst het
          rw [hc]
          simp [alookup_ainsert]
        · have hne : ¬(tn = t ∨ tn ∈ rest) := by
            rintro (rfl | hr)
            · exact het rfl
            · exact hmem hr
          rw [if_neg hne]
          cases hpt : price t with
          | some c' => exact alookup_ainsert_ne m [t] [tn] _ (by simp [het])
          | none => rfl
    · have hnone : price tn = none := by
        cases hp : price tn with
        | some c => exact absurd ⟨c, hp⟩ hptn
        | none => rfl
      rw [hnone]
      cases hpt : price t with
      | some c' =>
        refine alookup_ainsert_ne m [t] [tn] _ ?_
        intro he
        have htn : tn = t := by simpa using he
        rw [htn, hpt] at hnone
        exact Option.noConfusion hnone
      | none => rfl

/-- The ledger value the usa adapter records for a tracking number is
determined by the tracking number alone: every concurrent lookup for a
given key assigns the same fetched cost, so repeated rows for one key
can neither carry different costs nor lose information. -/
theorem usa_lookup_price (price : String → Option ℚ)
    (tracking_numbers : List String) (tn : String) (h : tn ∈ tracking_numbers) :
    alookup (retrieve_usa_tracking_prices price tracking_numbers) [tn] =
      (price tn).map (fun c => ("usa", c, "")) := by
  unfold retrieve_usa_tracking_prices
  rw [usa_go_lookup price tracking_numbers [] tn]
  cases price tn with
  | some c => simp [h]
  | none => rfl

/-- Verified melul row for tracking "1Z999" with cost 5. -/
def c8rowV : MelulRow := ⟨"0", "1", "PO1", 5, "2021-01-02 03:04:05", "1Z999"⟩

/-- Void melul row for tracking "1Z999" with cost 3. -/
def c8rowX : MelulRow := ⟨"1", "0", "PO1", 3, "2021-01-03 03:04:05", "1Z999"⟩

/-- First of two verified rows for tracking "T1", cost 10. -/
def c8row10 : MelulRow := ⟨"0", "1", "", 10, "2021-01-02 00:00:00", "T1"⟩

/-- Second of two verified rows for tracking "T1", cost 15. -/
def c8row15 : MelulRow := ⟨"0", "1", "", 15, "2021-01-03 00:00:00", "T1"⟩

/-- Recon-CSV row posting 10 for tracking "T1". -/
def c8reconR10 : CsvReconRow := ⟨"t1", "$10"⟩

/-- Recon-CSV row posting 15 for tracking "T1". -/
def c8reconR15 : CsvReconRow := ⟨"T1", "15"⟩

/-- Verified emb row posting 10 for tracking "T1". -/
def c8embR10 : EmbRow := ⟨"t1", "True", "10"⟩

/-- Verified emb row posting 15 for tracking "T1". -/
def c8embR15 : EmbRow := ⟨"T1", "True", "15"⟩

/-- Verified emb row posting 5 for tracking "1Z999". -/
def c8embRV : EmbRow := ⟨"1z999", "True", "5"⟩

/-- Unverified emb row with cost 3 for tracking "1Z999". -/
def c8embRX : EmbRow := ⟨"1Z999", "False", "3"⟩

/-- Oaks table row posting 10 for tracking "T1". -/
def c8oaksRow10 : List String := ["a", "t1", "c", "d", "e", "$10"]

/-- Oaks table row posting 15 for tracking "T1". -/
def c8oaksRow15 : List String := ["f", "T1", "h", "i", "j", "15"]

/-- YRCW row posting 10 for tracking "T1". -/
def c8yrcwR10 : YrcwRow := ⟨"t1", "$10"⟩

/-- YRCW row posting 15 for tracking "T1". -/
def c8yrcwR15 : YrcwRow := ⟨"T1", "15"⟩

/-- Gibstrat row posting price 10 for tracking "T1". -/
def c8gibR10 : GibstratRow := ⟨"t1", "10", ""⟩

/-- Gibstrat row posting price 15 for tracking "T1". -/
def c8gibR15 : GibstratRow := ⟨"T1", "15", ""⟩

/-- Busted-format BFMR td list: two entries for "T1" with $10 and 15,
followed by the two shaved total cells. -/
def c8bustedTds : List String :=
  ["t1", "a", "b", "c", "$10", "T1", "d", "e", "f", "15", "Total", "$25"]

/-- Standard-format BFMR rows: header plus two 5-td entries for "T1". -/
def c8standardRows : List (List String) :=
  [["hdr"], ["t1", "x", "y", "z", "$10"], ["T1", "x", "y", "z", "15"]]

/-- 2020-12-22-format BFMR row texts: header, then two sections for
"T1" with $10 and $15, then the total row. -/
def c8texts2020 : List String :=
  ["header", "T1", "$10", "T1", "$15", "Total: $25"]

/-- Cost endpoint for the usa conjuncts: "T1" costs 7, others fail. -/
def c8price : String → Option ℚ := fun tn => if tn = "T1" then some 7 else none

/-- Claim C8: cost accumulation is additive and void-aware in every
adapter.  For each adapter that builds tracking-keyed ledger entries —
the melul portals, the local recon-CSV fallback, embdeals, oaks, yrcw,
gibstrat/dtmd, and the three BFMR table formats — appending one raw row
to any prior run sums the row's contribution onto the previously
accumulated value of its key (for melul the contribution is the cost if
VERIFIED and not VOID else 0; for embdeals it is the cost if the total
is non-blank and verified else 0, the key still being recorded); in
particular two rows with costs 10 and 15 for one key accumulate 25, and
a verified 5 plus a void/unverified 3 leave the key at 5.  The usa
adapter's ledger value is the cost fetched per tracking number — a
function of the key alone, assigned identically for every occurrence of
the key — so two of its rows can never carry different costs for one
key and repeated assignment loses nothing. -/
theorem c8_cost_accumulation :
    ((∀ (g : String) (rows : List MelulRow) (r : MelulRow), r.TOTAL ≠ 0 →
      alookup (melul_get_tracking_pos_costs_maps g (rows ++ [r])).1
          (melulTrackingTuple r) =
        some (g,
          (match alookup (melul_get_tracking_pos_costs_maps g rows).1
              (melulTrackingTuple r) with
            | some info => info.2.1
            | none => 0) +
            (if r.VERIFIED = "1" ∧ ¬ r.VOID = "1" then r.TOTAL else 0),
          melulDate r.CREATED_DATE)) ∧
     alookup (melul_get_tracking_pos_costs_maps "mg" [c8row10, c8row15]).1 ["T1"] =
       some ("mg", 25, "2021-01-03") ∧
     alookup (melul_get_tracking_pos_costs_maps "mg" [c8rowV, c8rowX]).1 ["1Z999"] =
       some ("mg", 5, "2021-01-03")) ∧
    ((∀ (g : String) (rows : List CsvReconRow) (r : CsvReconRow)
        (m : TrackingInfoDict) (q : ℚ),
      recon_via_csvs g rows = some m →
      parseFloat? (pyRemoveChars ['$', ',', '-'] r.total) = some q →
      recon_via_csvs g (rows ++ [r]) =
        some (ainsert m [clean_csv_tracking r.trackingNumber]
          (g, (match alookup m [clean_csv_tracking r.trackingNumber] with
               | some info => info.2.1
               | none => 0) + q, ""))) ∧
     (recon_via_csvs "g" [c8reconR10, c8reconR15]).bind
        (fun m => alookup m ["T1"]) = some ("g", 25, "")) ∧
    ((∀ (rows : List EmbRow) (r : EmbRow) (m : TrackingInfoDict) (q : ℚ),
      emb_get_tracking_pos_prices rows = some m →
      r.total ≠ "" → r.is_verified = "True" → parseFloat? r.total = some q →
      emb_get_tracking_pos_prices (rows ++ [r]) =
        some (ainsert m [clean_csv_tracking r.tracking]
          ("embdeals", (match alookup m [clean_csv_tracking r.tracking] with
                        | some info => info.2.1
                        | none => 0) + q, ""))) ∧
     (∀ (rows : List EmbRow) (r : EmbRow) (m : TrackingInfoDict),
      emb_get_tracking_pos_prices rows = some m →
      ¬(r.total ≠ "" ∧ r.is_verified = "True") →
      emb_get_tracking_pos_prices (rows ++ [r]) =
        some (ainsert m [clean_csv_tracking r.tracking]
          ("embdeals", (match alookup m [clean_csv_tracking r.tracking] with
                        | some info => info.2.1
                        | none => 0) + 0, ""))) ∧
     (emb_get_tracking_pos_prices [c8embR10, c8embR15]).bind
        (fun m => alookup m ["T1"]) = some ("embdeals", 25, "") ∧
     (emb_get_tracking_pos_prices [c8embRV, c8embRX]).bind
        (fun m => alookup m ["1Z999"]) = some ("embdeals", 5, "")) ∧
    ((∀ (rows : List (List String)) (tds : List String)
        (m : TrackingInfoDict) (q : ℚ),
      oaks_get_tracking_pos_prices rows = some m →
      ¬(tds.length < 6) →
      ¬(pyStrip (pyUpper (tds.getD 1 "")) = "" ∨
        pyStartsWith (pyStrip (pyUpper (tds.getD 1 ""))) "TRACKING" = true) →
      (if pyStrip (pyRemoveChars ['$', ',', '-'] (tds.getD 5 "")) ≠ "" then
          parseFloat? (pyStrip (pyRemoveChars ['$', ',', '-'] (tds.getD 5 "")))
        else some 0) = some q →
      oaks_get_tracking_pos_prices (rows ++ [tds]) =
        some (ainsert m [pyStrip (pyUpper (tds.getD 1 ""))]
          ("oaks", (match alookup m [pyStrip (pyUpper (tds.getD 1 ""))] with
                    | some info => info.2.1
                    | none => 0) + q, ""))) ∧
     (oaks_get_tracking_pos_prices [c8oaksRow10, c8oaksRow15]).bind
        (fun m => alookup m ["T1"]) = some ("oaks", 25, "")) ∧
    ((∀ (rows : List YrcwRow) (r : YrcwRow) (m : TrackingInfoDict)
        (po : PoCostDict) (q : ℚ),
      yrcw_get_tracking_pos_prices rows = some (m, po) →
      ¬ r.value = "" →
      parseFloat? (pyRemoveChars ['$', ','] r.value) = some q →
      yrcw_get_tracking_pos_prices (rows ++ [r]) =
        some (ainsert m [clean_csv_tracking r.trackingNum]
            ("yrcw", (match alookup m [clean_csv_tracking r.trackingNum] with
                      | some info => info.2.1
                      | none => 0) + q, ""),
          ainsert po (clean_csv_tracking r.trackingNum)
            ((alookup po (clean_csv_tracking r.trackingNum)).getD 0 + q))) ∧
     (yrcw_get_tracking_pos_prices [c8yrcwR10, c8yrcwR15]).bind
        (fun mp => alookup mp.1 ["T1"]) = some ("yrcw", 25, "")) ∧
    ((∀ (g : String) (rows : List GibstratRow) (r : GibstratRow)
        (m : TrackingInfoDict) (qp qc : ℚ),
      gibstrat_get_tracking_pos_prices g rows = some m →
      (if pyRemoveChars ['$', ','] r.priceTotal ≠ "" then
          parseFloat? (pyRemoveChars ['$', ','] r.priceTotal)
        else some 0) = some qp →
      (if pyRemoveChars ['$', ','] r.commissionTotal ≠ "" then
          parseFloat? (pyRemoveChars ['$', ','] r.commissionTotal)
        else some 0) = some qc →
      gibstrat_get_tracking_pos_prices g (rows ++ [r]) =
        some (ainsert m [pyStrip (clean_csv_tracking r.trackingNumber)]
          (g, qp + qc +
            (match alookup m [pyStrip (clean_csv_tracking r.trackingNumber)] with
             | some info => info.2.1
             | none => 0), "unknown"))) ∧
     (gibstrat_get_tracking_pos_prices "gibstrat" [c8gibR10, c8gibR15]).bind
        (fun m => alookup m ["T1"]) = some ("gibstrat", 25, "unknown")) ∧
    ((∀ (m : TrackingInfoDict) (tracking : String) (cost : ℚ) (date : String),
      cost ≠ 0 →
      add_bfmr_cost_if_nonempty m tracking cost date =
        ainsert m [tracking]
          ("bfmr", (match alookup m [tracking] with
                    | some info => info.2.1
                    | none => 0) + cost, date)) ∧
     (∀ (date : String) (m : TrackingInfoDict) (t0 t1 t2 t3 t4 : String)
        (rest : List String) (q : ℚ),
      parseFloat? (pyRemoveChars [',', '$'] t4) = some q →
      fill_busted_bfmr_go date (some m) (t0 :: t1 :: t2 :: t3 :: t4 :: rest) =
        fill_busted_bfmr_go date
          (some (ainsert m [pyStrip (pyUpper t0)]
            ("bfmr", (match alookup m [pyStrip (pyUpper t0)] with
                      | some info => info.2.1
                      | none => 0) + q, date)))
          rest) ∧
     (fill_busted_bfmr_costs (some []) c8bustedTds "2021-01-01").bind
        (fun m => alookup m ["T1"]) = some ("bfmr", 25, "2021-01-01") ∧
     (∀ (st : Option TrackingInfoDict) (rows : List (List String))
        (tds : List String) (m : TrackingInfoDict) (q : ℚ) (date : String),
      rows ≠ [] →
      fill_standard_bfmr_costs st rows date = some m →
      tds.length = 5 →
      parseFloat? (pyRemoveChars [',', '$'] (pyStrip (tds.getD 4 ""))) = some q →
      fill_standard_bfmr_costs st (rows ++ [tds]) date =
        some (ainsert m [pyStrip (pyUpper (tds.getD 0 ""))]
          ("bfmr", (match alookup m [pyStrip (pyUpper (tds.getD 0 ""))] with
                    | some info => info.2.1
                    | none => 0) + q, date))) ∧
     (fill_standard_bfmr_costs (some []) c8standardRows "2021-01-01").bind
        (fun m => alookup m ["T1"]) = some ("bfmr", 25, "2021-01-01") ∧
     (fill_2020_12_22_bfmr_costs (some []) c8texts2020 "2021-01-01").bind
        (fun m => alookup m ["T1"]) = some ("bfmr", 25, "2021-01-01")) ∧
    (∀ (price : String → Option ℚ) (tracking_numbers : List String)
        (tn : String), tn ∈ tracking_numbers →
      alookup (retrieve_usa_tracking_prices price tracking_numbers) [tn] =
        (price tn).map (fun c => ("usa", c, ""))) := by
  refine ⟨⟨?_, ?_, ?_⟩, ⟨?_, ?_⟩, ⟨?_, ?_, ?_, ?_⟩, ⟨?_, ?_⟩, ⟨?_, ?_⟩,
    ⟨?_, ?_⟩, ⟨?_, ?_, ?_, ?_, ?_, ?_⟩, ?_⟩
  · intro g rows r hr
    have hsplit : (clean_csv_tracking r.TRACKING_NUMBERS |> pySplit) ',' ≠ [] :=
      pySplit_ne_nil _ ','
    simp only [melul_get_tracking_pos_costs_maps, List.foldl_append,
      List.foldl_cons, List.foldl_nil]
    unfold melulStep
    simp only [if_pos hsplit, if_pos hr]
    split
    · exact alookup_ainsert _ _ _
    · exact alookup_ainsert _ _ _
  · simp +decide [melul_get_tracking_pos_costs_maps, melulStep, melulTrackingTuple,
      clean_csv_tracking, pyUpper, pySplit, splitOnCharAux, pyStrip, isPyWS,
      melulDate, alookup, ainsert, c8row10, c8row15]
    norm_num
  · simp +decide [melul_get_tracking_pos_costs_maps, melulStep, melulTrackingTuple,
      clean_csv_tracking, pyUpper, pySplit, splitOnCharAux, pyStrip, isPyWS,
      melulDate, alookup, ainsert, c8rowV, c8rowX]
  · exact recon_via_csvs_additive
  · simp +decide [recon_via_csvs, recon_via_csvs_step, clean_csv_tracking,
      pyUpper, pyRemoveChars, parseFloat?, digitsVal?, splitOnCharAux, pyStrip,
      isPyWS, alookup, ainsert, c8reconR10, c8reconR15]
    norm_num
  · exact emb_additive_verified
  · exact emb_void_recorded
  · simp +decide [emb_get_tracking_pos_prices, emb_step, clean_csv_tracking,
      pyUpper, parseFloat?, digitsVal?, splitOnCharAux, pyStrip, isPyWS,
      alookup, ainsert, c8embR10, c8embR15]
    norm_num
  · simp +decide [emb_get_tracking_pos_prices, emb_step, clean_csv_tracking,
      pyUpper, parseFloat?, digitsVal?, splitOnCharAux, pyStrip, isPyWS,
      alookup, ainsert, c8embRV, c8embRX]
  · exact oaks_additive
  · simp +decide [oaks_get_tracking_pos_prices, oaks_step, pyStartsWith,
      pyUpper, pyRemoveChars, parseFloat?, digitsVal?, splitOnCharAux, pyStrip,
      isPyWS, alookup, ainsert, c8oaksRow10, c8oaksRow15]
    norm_num
  · exact yrcw_additive
  · simp +decide [yrcw_get_tracking_pos_prices, yrcw_step, clean_csv_tracking,
      pyUpper, pyRemoveChars, parseFloat?, digitsVal?, splitOnCharAux, pyStrip,
      isPyWS, alookup, ainsert, c8yrcwR10, c8yrcwR15]
    norm_num
  · exact gibstrat_additive
  · simp +decide [gibstrat_get_tracking_pos_prices, gibstrat_step,
      clean_csv_tracking, pyUpper, pyRemoveChars, parseFloat?, digitsVal?,
      splitOnCharAux, pyStrip, isPyWS, alookup, ainsert, c8gibR10, c8gibR15]
    norm_num
  · exact add_bfmr_cost_additive
  · exact fill_busted_step_additive
  · simp +decide [fill_busted_bfmr_costs, fill_busted_bfmr_go, pyUpper,
      pyRemoveChars, parseFloat?, digitsVal?, splitOnCharAux, pyStrip, isPyWS,
      alookup, ainsert, c8bustedTds]
    norm_num
  · exact fill_standard_bfmr_additive
  · simp +decide [fill_standard_bfmr_costs, pyUpper, pyRemoveChars, parseFloat?,
      digitsVal?, splitOnCharAux, pyStrip, isPyWS, alookup, ainsert,
      c8standardRows]
    norm_num
  · simp +decide [fill_2020_12_22_bfmr_costs, fill_2020_12_22_go,
      add_bfmr_cost_if_nonempty, containsChar, dollarAmount?, dollarAmountGo,
      parseFloat?, digitsVal?, splitOnCharAux, pyStrip, isPyWS, alookup,
      ainsert, c8texts2020]
    norm_num
  · exact usa_lookup_price

theorem c8_cost_accumulation_witness :
    alookup (melul_get_tracking_pos_costs_maps "mg" ([c8rowV] ++ [c8rowX])).1
        (melulTrackingTuple c8rowX) = some ("mg", 5, "2021-01-03") ∧
    recon_via_csvs "g" [c8reconR10] = some [(["T1"], ("g", 10, ""))] ∧
    emb_get_tracking_pos_prices [c8embRX] =
      some [(["1Z999"], ("embdeals", 0, ""))] ∧
    alookup (retrieve_usa_tracking_prices c8price ["T1", "T2", "T1"]) ["T1"] =
      some ("usa", 7, "") := by
  refine ⟨?_, ?_, ?_, ?_⟩
  · have h := c8_cost_accumulation.1.1 "mg" [c8rowV] c8rowX (by decide)
    rw [h]
    simp +decide [melul_get_tracking_pos_costs_maps, melulStep, melulTrackingTuple,
      clean_csv_tracking, pyUpper, pySplit, splitOnCharAux, pyStrip, isPyWS,
      melulDate, alookup, ainsert, c8rowV, c8rowX]
  · have h := c8_cost_accumulation.2.1.1 "g" [] c8reconR10 [] 10 rfl
      (by simp +decide [parseFloat?, digitsVal?, pyRemoveChars, pyStrip, isPyWS,
        splitOnCharAux, c8reconR10])
    simpa +decide [clean_csv_tracking, pyUpper, alookup, ainsert,
      c8reconR10] using h
  · have h := c8_cost_accumulation.2.2.1.2.1 [] c8embRX [] rfl (by decide)
    simpa +decide [clean_csv_tracking, pyUpper, alookup, ainsert,
      c8embRX] using h
  · have h := c8_cost_accumulation.2.2.2.2.2.2.2 c8price ["T1", "T2", "T1"]
      "T1" (by decide)
    simpa [c8price] using h

/-- Claim C9: the retrying executor attempts the wrapped operation up to 5
times for cost fetches and 10 times for uploads; it returns the first
successful result unchanged, it raises a single aggregate failure
carrying the last underlying error only after every attempt within the
bound failed, and it never fails before exhausting the bound (an
aggregate failure implies all attempts failed). -/
theorem c9_retry_bounds (ε α : Type) (op : ℕ → Except ε α) :
    (∀ (k : ℕ) (a : α), k < 5 → op k = Except.ok a →
      (∀ j, j < k → ∃ e, op j = Except.error e) →
      get_new_tracking_pos_costs_maps_with_retry op = RetryResult.ok a) ∧
    (∀ f : ℕ → ε, (∀ j, j < 5 → op j = Except.error (f j)) →
      get_new_tracking_pos_costs_maps_with_retry op =
        RetryResult.exceededRetryLimit (some (f 4))) ∧
    (∀ l, get_new_tracking_pos_costs_maps_with_retry op =
        RetryResult.exceededRetryLimit l →
      ∀ j, j < 5 → ∃ e, op j = Except.error e) ∧
    (∀ (k : ℕ) (a : α), k < 10 → op k = Except.ok a →
      (∀ j, j < k → ∃ e, op j = Except.error e) →
      upload_to_group op = RetryResult.ok a) ∧
    (∀ f : ℕ → ε, (∀ j, j < 10 → op j = Except.error (f j)) →
      upload_to_group op = RetryResult.exceededRetryLimit (some (f 9))) ∧
    (∀ l, upload_to_group op = RetryResult.exceededRetryLimit l →
      ∀ j, j < 10 → ∃ e, op j = Except.error e) := by
  refine ⟨?_, ?_, ?_, ?_, ?_, ?_⟩
  · intro k a hk hok hprev
    refine retryGo_ok op 5 0 k none a hk ?_ ?_
    · simpa using hok
    · intro j hj
      simpa using hprev j hj
  · intro f hall
    have h := retryGo_all_fail op f 5 0 none (by omega)
      (fun j hj => by simpa using hall j hj)
    simpa using h
  · intro l h j hj
    have := retryGo_exhausted_inv op 5 0 none l h j hj
    simpa using this
  · intro k a hk hok hprev
    refine retryGo_ok op 10 0 k none a hk ?_ ?_
    · simpa using hok
    · intro j hj
      simpa using hprev j hj
  · intro f hall
    have h := retryGo_all_fail op f 10 0 none (by omega)
      (fun j hj => by simpa using hall j hj)
    simpa using h
  · intro l h j hj
    have := retryGo_exhausted_inv op 10 0 none l h j hj
    simpa using this

/-- Operation for the c9 witness succeeding on its third attempt. -/
def c9opOk : ℕ → Except ℕ ℕ := fun j => if j = 2 then Except.ok 7 else Except.error j

/-- Operation for the c9 witness failing on every attempt. -/
def c9opFail : ℕ → Except ℕ ℕ := fun j => Except.error j

theorem c9_retry_bounds_witness :
    get_new_tracking_pos_costs_maps_with_retry c9opOk = RetryResult.ok 7 ∧
    get_new_tracking_pos_costs_maps_with_retry c9opFail =
      RetryResult.exceededRetryLimit (some 4) ∧
    upload_to_group c9opFail = RetryResult.exceededRetryLimit (some 9) := by
  refine ⟨?_, ?_, ?_⟩
  · refine (c9_retry_bounds ℕ ℕ c9opOk).1 2 7 (by omega) (by rfl) ?_
    intro j hj
    refine ⟨j, ?_⟩
    unfold c9opOk
    rw [if_neg (by omega : ¬ j = 2)]
  · exact (c9_retry_bounds ℕ ℕ c9opFail).2.1 id (fun j _ => rfl)
  · exact (c9_retry_bounds ℕ ℕ c9opFail).2.2.2.2.1 id (fun j _ => rfl)

theorem bind_some_inv {α β : Type} {x : Option α} {f : α → Option β} {b : β}
    (h : x >>= f = some b) : ∃ a, x = some a ∧ f a = some b := by
  match hx : x with
  | none => exact Option.noConfusion h
  | some a => exact ⟨a, rfl, h⟩

/-- Claim C10: `from_row` reconstructs a cluster whose set-valued fields are
the comma-split-and-trimmed elements of the corresponding cell (for
`Non-Reimbursed Trackings` and `POs` a blank cell gives the empty set),
whose numeric fields are 0.0 when the cell is blank, and where any
column absent from the header yields the field's default (false for
`Manual Override`) instead of an error. -/
theorem c10_from_row_reconstruction (header : List String) (row : List Cell)
    (c : Cluster) (h : from_row header row = some c) :
    ("Manual Override" ∉ header → c.manual_override = false) ∧
    (∀ cl, fetchCell header row "Amount Billed" = some cl →
      "Amount Billed" ∈ header → cl.truthy = false → c.expected_cost = 0) ∧
    (∀ cl, fetchCell header row "Amount Reimbursed" = some cl →
      "Amount Reimbursed" ∈ header → cl.truthy = false → c.tracked_cost = 0) ∧
    (∀ cl, fetchCell header row "Manual Cost Adjustment" = some cl →
      "Manual Cost Adjustment" ∈ header → cl.truthy = false → c.adjustment = 0) ∧
    ("Amount Billed" ∉ header → c.expected_cost = 0) ∧
    ("Amount Reimbursed" ∉ header → c.tracked_cost = 0) ∧
    ("Manual Cost Adjustment" ∉ header → c.adjustment = 0) ∧
    (∀ cl, fetchCell header row "Orders" = some cl → "Orders" ∈ header →
      c.orders = pySet ((pySplit cl.pyStr ',').map pyStrip)) ∧
    ("Orders" ∉ header → c.orders = []) ∧
    (∀ cl, fetchCell header row "Trackings" = some cl → "Trackings" ∈ header →
      c.trackings = pySet ((pySplit cl.pyStr ',').map pyStrip)) ∧
    ("Trackings" ∉ header → c.trackings = []) ∧
    (∀ cl, fetchCell header row "Non-Reimbursed Trackings" = some cl →
      "Non-Reimbursed Trackings" ∈ header → cl.pyStr ≠ "" →
      c.non_reimbursed_trackings = pySet ((pySplit cl.pyStr ',').map pyStrip)) ∧
    ("Non-Reimbursed Trackings" ∉ header → c.non_reimbursed_trackings = []) ∧
    (∀ cl, fetchCell header row "POs" = some cl → "POs" ∈ header →
      cl.pyStr ≠ "" →
      c.purchase_orders = pySet ((pySplit cl.pyStr ',').map pyStrip)) ∧
    ("POs" ∉ header → c.purchase_orders = []) ∧
    ("Group" ∉ header → c.group = "") ∧
    ("Last Ship Date" ∉ header → c.last_ship_date = "0") ∧
    ("Last Delivery Date (Est.)" ∉ header → c.last_delivery_date = "") ∧
    ("To Email" ∉ header → c.to_email = "") ∧
    ("Notes" ∉ header → c.notes = "") ∧
    ("Cancelled Items" ∉ header → c.cancelled_items = []) := by
  unfold from_row at h
  obtain ⟨orders, hOrders, h⟩ := bind_some_inv h
  obtain ⟨trackings, hTrackings, h⟩ := bind_some_inv h
  obtain ⟨ec, hEc, h⟩ := bind_some_inv h
  obtain ⟨tc, hTc, h⟩ := bind_some_inv h
  obtain ⟨nrt, hNrt, h⟩ := bind_some_inv h
  obtain ⟨lsd, hLsd, h⟩ := bind_some_inv h
  obtain ⟨ldd, hLdd, h⟩ := bind_some_inv h
  obtain ⟨pos, hPos, h⟩ := bind_some_inv h
  obtain ⟨grp, hGrp, h⟩ := bind_some_inv h
  obtain ⟨adj, hAdj, h⟩ := bind_some_inv h
  obtain ⟨mo, hMo, h⟩ := bind_some_inv h
  obtain ⟨te, hTe, h⟩ := bind_some_inv h
  obtain ⟨nt, hNt, h⟩ := bind_some_inv h
  obtain ⟨ci, hCi, h⟩ := bind_some_inv h
  rw [Option.pure_def] at h
  have hc := Option.some.inj h
  subst hc
  refine ⟨?_, ?_, ?_, ?_, ?_, ?_, ?_, ?_, ?_, ?_, ?_, ?_, ?_, ?_, ?_, ?_, ?_,
    ?_, ?_, ?_, ?_⟩
  · intro habs
    rw [readOverride, if_neg habs] at hMo
    exact (Option.some.inj hMo).symm
  · intro cl hcl hmem htr
    rw [readNumeric, if_pos hmem, hcl] at hEc
    simp only [htr, Bool.false_eq_true, if_false] at hEc
    exact (Option.some.inj hEc).symm
  · intro cl hcl hmem htr
    rw [readNumeric, if_pos hmem, hcl] at hTc
    simp only [htr, Bool.false_eq_true, if_false] at hTc
    exact (Option.some.inj hTc).symm
  · intro cl hcl hmem htr
    rw [readNumeric, if_pos hmem, hcl] at hAdj
    simp only [htr, Bool.false_eq_true, if_false] at hAdj
    exact (Option.some.inj hAdj).symm
  · intro habs
    rw [readNumeric, if_neg habs] at hEc
    simp only [Cell.truthy, ne_eq, not_true_eq_false, Bool.false_eq_true,
      if_false, decide_not] at hEc
    exact (Option.some.inj hEc).symm
  · intro habs
    rw [readNumeric, if_neg habs] at hTc
    simp only [Cell.truthy, ne_eq, not_true_eq_false, Bool.false_eq_true,
      if_false, decide_not] at hTc
    exact (Option.some.inj hTc).symm
  · intro habs
    rw [readNumeric, if_neg habs] at hAdj
    simp only [Cell.truthy, ne_eq, not_true_eq_false, Bool.false_eq_true,
      if_false, decide_not] at hAdj
    exact (Option.some.inj hAdj).symm
  · intro cl hcl hmem
    rw [readSetAlways, if_pos hmem, hcl] at hOrders
    simp only [Option.map_some'] at hOrders
    exact (Option.some.inj hOrders).symm
  · intro habs
    rw [readSetAlways, if_neg habs] at hOrders
    exact (Option.some.inj hOrders).symm
  · intro cl hcl hmem
    rw [readSetAlways, if_pos hmem, hcl] at hTrackings
    simp only [Option.map_some'] at hTrackings
    exact (Option.some.inj hTrackings).symm
  · intro habs
    rw [readSetAlways, if_neg habs] at hTrackings
    exact (Option.some.inj hTrackings).symm
  · intro cl hcl hmem hs
    rw [readGuardedSet, if_pos hmem, hcl] at hNrt
    simp only [Option.map_some', hs, ne_eq, not_false_eq_true, if_true] at hNrt
    exact (Option.some.inj hNrt).symm
  · intro habs
    rw [readGuardedSet, if_neg habs] at hNrt
    simp only [ne_eq, not_true_eq_false, if_false] at hNrt
    exact (Option.some.inj hNrt).symm
  · intro cl hcl hmem hs
    rw [readGuardedSet, if_pos hmem, hcl] at hPos
    simp only [Option.map_some', hs, ne_eq, not_false_eq_true, if_true] at hPos
    exact (Option.some.inj hPos).symm
  · intro habs
    rw [readGuardedSet, if_neg habs] at hPos
    simp only [ne_eq, not_true_eq_false, if_false] at hPos
    exact (Option.some.inj hPos).symm
  · intro habs
    rw [readRawStr, if_neg habs] at hGrp
    exact (Option.some.inj hGrp).symm
  · intro habs
    rw [readRawStr, if_neg habs] at hLsd
    exact (Option.some.inj hLsd).symm
  · intro habs
    rw [readRawStr, if_neg habs] at hLdd
    exact (Option.some.inj hLdd).symm
  · intro habs
    rw [readRawStr, if_neg habs] at hTe
    exact (Option.some.inj hTe).symm
  · intro habs
    rw [readRawStr, if_neg habs] at hNt
    exact (Option.some.inj hNt).symm
  · intro habs
    rw [readCancelled, if_neg habs] at hCi
    simp only [ne_eq, not_true_eq_false, if_false] at hCi
    exact (Option.some.inj hCi).symm

/-- Header for the c10 witness: blank reimbursed/adjustment cells, no
Manual Override column. -/
def c10header : List String := ["Orders", "Amount Reimbursed", "Manual Cost Adjustment"]

/-- Row for the c10 witness. -/
def c10row : List Cell := [Cell.str "o1, o2", Cell.str "", Cell.str ""]

/-- Expected reimport of the c10 witness row. -/
def c10result : Cluster := { Cluster.new "" with orders := ["o1", "o2"] }

theorem c10_from_row_witness :
    from_row c10header c10row = some c10result ∧
    c10result.adjustment = 0 ∧ c10result.tracked_cost = 0 ∧
    c10result.expected_cost = 0 ∧ c10result.manual_override = false ∧
    c10result.orders = ["o1", "o2"] := by
  have hsome : from_row c10header c10row = some c10result := by decide
  have h := c10_from_row_reconstruction c10header c10row c10result hsome
  refine ⟨hsome, ?_, ?_, ?_, ?_, ?_⟩
  · exact h.2.2.2.1 (Cell.str "") (by decide) (by decide) (by decide)
  · exact h.2.2.1 (Cell.str "") (by decide) (by decide) (by decide)
  · exact h.2.2.2.2.1 (by decide)
  · exact h.1 (by decide)
  · have horders := h.2.2.2.2.2.2.2.1 (Cell.str "o1, o2") (by decide) (by decide)
    rw [horders]
    decide

end OrderTracking
